import Mathlib

/-!
# Verification of the complexity-inference engine of a Python code analyser

This file is a shallow embedding of `analyzer/code_analysis.py` (class
`CodeAnalyzer`): the complexity lattice, the structural pattern detectors, the
tree-based time and space inference passes, the text-based pass for C-family
languages, and the per-file / per-directory drivers.  Theorems at the end of
the file settle the specification claims against these definitions.

Conventions of the embedding:
* Complexity classes are the literal strings the source uses
  (`"O(1)"`, `"O(log n)"`, ..., `"O(n!)"`, and the stray token `"O(k)"`).
* Python `ast` trees are the mutual inductive `PyNode` below.  Machinery the
  source gets from the standard library (`ast.parse`, `os.walk`) is modelled
  as oracle inputs: a file carries the parse outcome of its text.
* Python's `max(xs, key=f)` returns the first element attaining the maximal
  key; the models below reproduce that tie-breaking exactly.
-/

namespace CodeAnalysis

/-! ## The complexity lattice -/

/-- The fixed class order used by `_upgrade_complexity` and
`_combine_complexities`:
`order = ['O(1)', 'O(log n)', 'O(n)', 'O(n log n)', 'O(n²)', 'O(n³)', 'O(n³+)', 'O(n!)']`. -/
def complexity_order : List String :=
  ["O(1)", "O(log n)", "O(n)", "O(n log n)", "O(n²)", "O(n³)", "O(n³+)", "O(n!)"]

/-- Model of `order.index(c) if c in order else 0`: the position of `c` in
`complexity_order`, with unrecognized tokens falling back to `0`. -/
def complexity_index (c : String) : Nat :=
  if c = "O(1)" then 0
  else if c = "O(log n)" then 1
  else if c = "O(n)" then 2
  else if c = "O(n log n)" then 3
  else if c = "O(n²)" then 4
  else if c = "O(n³)" then 5
  else if c = "O(n³+)" then 6
  else if c = "O(n!)" then 7
  else 0

/-- Model of `_complexity_weight`: the source's `weights` dict assigns each class in
`complexity_order` exactly its index, and `dict.get(c, 0)` falls back to `0`,
so the mapping coincides with `complexity_index`. -/
def complexity_weight (c : String) : Nat := complexity_index c

/-- Model of `_upgrade_complexity(current, new)`: `max([current, new], key=weight)`.
Python's `max` keeps the first element on ties, so the result is `new` only
when its weight is strictly greater. -/
def upgrade_complexity (current new : String) : String :=
  if complexity_index new > complexity_index current then new else current

/-- Model of `_combine_complexities(c1, c2)` (the nesting composition):
identities for `O(1)`, the special `O(n)`/`O(log n)` product rule, and
otherwise the first-biased maximum by weight. -/
def combine_complexities (c1 c2 : String) : String :=
  if c1 = "O(1)" then c2
  else if c2 = "O(1)" then c1
  else if (c1 = "O(n)" ∧ c2 = "O(log n)") ∨ (c1 = "O(log n)" ∧ c2 = "O(n)") then "O(n log n)"
  else if complexity_index c2 > complexity_index c1 then c2 else c1

/-- Model of `_complexity_at_depth(depth)`: class assigned to loop-nesting depth. -/
def complexity_at_depth (depth : Nat) : String :=
  if depth = 0 then "O(1)"
  else if depth = 1 then "O(n)"
  else if depth = 2 then "O(n²)"
  else if depth = 3 then "O(n³)"
  else "O(n³+)"

/-- Model of `_space_at_depth(depth)`: space class for loop-nesting depth (the source
has no `depth == 0` case; its callers always pass a positive depth). -/
def space_at_depth (depth : Nat) : String :=
  if depth = 1 then "O(n)"
  else if depth = 2 then "O(n²)"
  else if depth = 3 then "O(n³)"
  else "O(n³+)"

/-- The seven classes that the inference passes can actually produce
(`O(n!)` exists in the order but is produced nowhere). -/
def produced_classes : List String :=
  ["O(1)", "O(log n)", "O(n)", "O(n log n)", "O(n²)", "O(n³)", "O(n³+)"]

/-! ## The Python AST model

The constructors mirror the `ast` node kinds that `code_analysis.py` inspects:
`Module`, `FunctionDef`, `Assign`, `AugAssign`, `For`, `While`, `If`, `Expr`,
`Return`, `Pass`, `Call`, `Name`, `Attribute`, `BinOp`, `Compare`, `Constant`,
`Subscript`, `Slice`, `List`, `Dict`, `Set`, the three comprehension kinds and
`comprehension` generators.  Operator and context markers (`ast.Add`,
`ast.Load`, ...) are carried as plain enum data. -/

/-- Binary operator kinds (`ast.operator`). -/
inductive BinOpKind where
  | add | sub | mult | div | floorDiv | rshift | otherOp
deriving DecidableEq, Repr

/-- Comparison operator kinds (`ast.cmpop`). -/
inductive CmpOpKind where
  | lt | ltE | gt | gtE | eq | notEq | otherCmp
deriving DecidableEq, Repr

/-- Name expression contexts (`ast.expr_context`). -/
inductive NameCtx where
  | load | store
deriving DecidableEq, Repr

/-- Literal constant payloads (`ast.Constant.value`). -/
inductive PyConst where
  | intC (n : Int)
  | boolC (b : Bool)
  | strC (s : String)
  | noneC
deriving DecidableEq, Repr

/-- Python `==` against an integer literal, as used by the detectors
(`node.value.value == 2`, `... in [2, 1]`): `True == 1` and `False == 0`
hold in Python, so boolean constants compare by their numeric value. -/
def py_eq_int (c : PyConst) (k : Int) : Bool :=
  match c with
  | .intC n => n == k
  | .boolC b => (if b then (1 : Int) else 0) == k
  | _ => false

mutual
/-- A Python AST node. -/
inductive PyNode where
  | module (body : PyNodeList)
  | functionDef (fname : String) (body : PyNodeList)
  | assign (targets : PyNodeList) (value : PyNode)
  | augAssign (target : PyNode) (op : BinOpKind) (value : PyNode)
  | forLoop (target : PyNode) (iter : PyNode) (body : PyNodeList) (orelse : PyNodeList)
  | whileLoop (test : PyNode) (body : PyNodeList) (orelse : PyNodeList)
  | ifStmt (test : PyNode) (body : PyNodeList) (orelse : PyNodeList)
  | exprStmt (value : PyNode)
  | ret (value : PyOptNode)
  | pass
  | call (func : PyNode) (args : PyNodeList)
  | name (id : String) (ctx : NameCtx)
  | attribute (value : PyNode) (attr : String)
  | binOp (left : PyNode) (op : BinOpKind) (right : PyNode)
  | compare (left : PyNode) (ops : List CmpOpKind) (comparators : PyNodeList)
  | constant (value : PyConst)
  | subscript (value : PyNode) (idx : PyNode)
  | sliceExpr (lower : PyOptNode) (upper : PyOptNode) (step : PyOptNode)
  | listLit (elts : PyNodeList)
  | dictLit (keys : PyNodeList) (vals : PyNodeList)
  | setLit (elts : PyNodeList)
  | listComp (elt : PyNode) (generators : PyNodeList)
  | setComp (elt : PyNode) (generators : PyNodeList)
  | dictComp (key : PyNode) (value : PyNode) (generators : PyNodeList)
  | comprehension (target : PyNode) (iter : PyNode) (ifs : PyNodeList)
deriving DecidableEq, Repr
/-- An optional child node (`Optional[ast.expr]` fields). -/
inductive PyOptNode where
  | noneN
  | someN (node : PyNode)
deriving DecidableEq, Repr
/-- A list of child nodes, kept in the mutual package so that structural
recursion over node/list pairs is available. -/
inductive PyNodeList where
  | nil
  | cons (head : PyNode) (tail : PyNodeList)
deriving DecidableEq, Repr
end

/-- Convert a `PyNodeList` to an ordinary list. -/
def PyNodeList.toList : PyNodeList → List PyNode
  | .nil => []
  | .cons h t => h :: t.toList

/-- Length of a `PyNodeList` (`len(...)` on a child list). -/
def PyNodeList.len : PyNodeList → Nat
  | .nil => 0
  | .cons _ t => t.len + 1

mutual
/-- Model of `ast.walk(node)`: every node of the subtree rooted at `node`.
Python's `ast.walk` is breadth-first; this model is depth-first preorder,
which lists the same nodes, and every use below (`any`-style detection and
commutative counting folds) is insensitive to the order.  Child order within
one node follows `ast.iter_child_nodes` field order.  Operator / context
markers, which `ast.walk` does yield, are omitted: they are childless and no
detector matches them. -/
def walk : PyNode → List PyNode
  | .module b => .module b :: walkList b
  | .functionDef nm b => .functionDef nm b :: walkList b
  | .assign t v => .assign t v :: (walkList t ++ walk v)
  | .augAssign t op v => .augAssign t op v :: (walk t ++ walk v)
  | .forLoop t i b o => .forLoop t i b o :: (walk t ++ walk i ++ walkList b ++ walkList o)
  | .whileLoop ts b o => .whileLoop ts b o :: (walk ts ++ walkList b ++ walkList o)
  | .ifStmt ts b o => .ifStmt ts b o :: (walk ts ++ walkList b ++ walkList o)
  | .exprStmt v => .exprStmt v :: walk v
  | .ret v => .ret v :: walkOpt v
  | .pass => [.pass]
  | .call f a => .call f a :: (walk f ++ walkList a)
  | .name i c => [.name i c]
  | .attribute v a => .attribute v a :: walk v
  | .binOp l op r => .binOp l op r :: (walk l ++ walk r)
  | .compare l ops cs => .compare l ops cs :: (walk l ++ walkList cs)
  | .constant v => [.constant v]
  | .subscript v ix => .subscript v ix :: (walk v ++ walk ix)
  | .sliceExpr lo hi st => .sliceExpr lo hi st :: (walkOpt lo ++ walkOpt hi ++ walkOpt st)
  | .listLit e => .listLit e :: walkList e
  | .dictLit k v => .dictLit k v :: (walkList k ++ walkList v)
  | .setLit e => .setLit e :: walkList e
  | .listComp e g => .listComp e g :: (walk e ++ walkList g)
  | .setComp e g => .setComp e g :: (walk e ++ walkList g)
  | .dictComp k v g => .dictComp k v g :: (walk k ++ walk v ++ walkList g)
  | .comprehension t i ifs => .comprehension t i ifs :: (walk t ++ walk i ++ walkList ifs)
/-- Walk every node of an optional child. -/
def walkOpt : PyOptNode → List PyNode
  | .noneN => []
  | .someN n => walk n
/-- Walk every node of each element of a child list. -/
def walkList : PyNodeList → List PyNode
  | .nil => []
  | .cons h t => walk h ++ walkList t
end

/-- The `body` field of a node, or `[]` when the node kind has none
(`node.body if hasattr(node, 'body') else []`). -/
def body_of : PyNode → PyNodeList
  | .module b => b
  | .functionDef _ b => b
  | .forLoop _ _ b _ => b
  | .whileLoop _ b _ => b
  | .ifStmt _ b _ => b
  | _ => .nil

/-! ## Structural pattern detectors -/

/-- Is this node an `ast.Slice`? -/
def is_slice : PyNode → Bool
  | .sliceExpr _ _ _ => true
  | _ => false

/-- Is this node a direct call of `func_name`
(`isinstance(node, ast.Call) and isinstance(node.func, ast.Name) and
node.func.id == func_name`)? -/
def is_self_call (func_name : String) : PyNode → Bool
  | .call (.name id _) _ => id == func_name
  | _ => false

/-- Model of `_is_recursive_function` (the later of the two identical definitions in
the class body wins in Python; its extra
`isinstance(node.func, ast.Attribute) and hasattr(node.func, 'id')` branch is
dead code because `ast.Attribute` has no `id` attribute).  Only ever called
on `FunctionDef` nodes; other kinds answer `false`. -/
def is_recursive_function : PyNode → Bool
  | .functionDef nm b => (walk (.functionDef nm b)).any (is_self_call nm)
  | _ => false

/-- Does an `Assign`'s value match the halving pattern
`BinOp(op=FloorDiv, right=Constant(2))` (e.g. `mid = (lo + hi) // 2`)? -/
def halving_assign_value : PyNode → Bool
  | .binOp _ .floorDiv (.constant c) => py_eq_int c 2
  | _ => false

/-- One node's test inside `_is_logarithmic_loop`'s walk:
halving aug-assignments (`//= 2`, `/= 2`, `>>= 1`; the source accepts the
constants `2` and `1` for all three operators), midpoint or pointer-step
assignments (`mid = (l + r) // 2`, `l = mid + 1`, `r = mid - 1`), and `while`
guards whose comparison uses an ordering operator. -/
def log_loop_node_hit : PyNode → Bool
  | .augAssign _ op v =>
      (op == .floorDiv || op == .div || op == .rshift) &&
        (match v with
         | .constant c => py_eq_int c 2 || py_eq_int c 1
         | _ => false)
  | .assign _ (.binOp _ op (.constant c)) =>
      if op == .floorDiv then py_eq_int c 2
      else if op == .add || op == .sub then py_eq_int c 1
      else false
  | .whileLoop (.compare _ ops _) _ _ =>
      ops.any (fun o => o == .ltE || o == .lt || o == .gtE || o == .gt)
  | _ => false

/-- Model of `_is_logarithmic_loop(loop_node)`: some node of the subtree matches a
halving / binary-search pattern. -/
def is_logarithmic_loop (loop_node : PyNode) : Bool :=
  (walk loop_node).any log_loop_node_hit

/-- Is this node one of the container constructors
(`ast.List/Dict/Set/ListComp/DictComp/SetComp`)? -/
def is_container_node : PyNode → Bool
  | .listLit _ => true
  | .dictLit _ _ => true
  | .setLit _ => true
  | .listComp _ _ => true
  | .dictComp _ _ _ => true
  | .setComp _ _ => true
  | _ => false

/-- Is this a container-growing method call
(`append/extend/add/update/insert`)? -/
def accumulating_call : PyNode → Bool
  | .call (.attribute _ attr) _ =>
      attr == "append" || attr == "extend" || attr == "add" ||
        attr == "update" || attr == "insert"
  | _ => false

/-- Model of `_has_accumulating_operations(loop_node)`. -/
def has_accumulating_operations (loop_node : PyNode) : Bool :=
  (walk loop_node).any accumulating_call

/-! ## Recursive-function heuristics -/

/-- The facts `_analyze_recursive_complexity` gathers in its walk. -/
structure RecursionFacts where
  recursive_calls : Nat
  divides_problem : Bool
  has_slicing : Bool
deriving DecidableEq, Repr

/-- One step of `_analyze_recursive_complexity`'s fact-gathering loop (the
`if`/`elif` chain over one walked node). -/
def rec_facts_step (func_name : String) (st : RecursionFacts) : PyNode → RecursionFacts
  | .call (.name id _) _ =>
      if id == func_name then { st with recursive_calls := st.recursive_calls + 1 } else st
  | .subscript _ ix =>
      if is_slice ix then { st with divides_problem := true, has_slicing := true } else st
  | .assign _ v =>
      if halving_assign_value v then { st with divides_problem := true } else st
  | _ => st

/-- The `(recursive_calls, divides_problem, has_slicing)` facts of a
function, gathered over `ast.walk(func_node)`. -/
def recursion_facts (func_name : String) (func_node : PyNode) : RecursionFacts :=
  (walk func_node).foldl (rec_facts_step func_name) ⟨0, false, false⟩

/-- Model of `_analyze_recursive_complexity(func_node)`: the fixed time table over the
gathered facts.  (The `recursive_calls == 1` branch returns `'O(n)'` on both
sides of its `divides_problem` split.)  Callers only pass `FunctionDef`
nodes; other kinds answer `"O(1)"`. -/
def analyze_recursive_complexity : PyNode → String
  | .functionDef nm b =>
      let f := recursion_facts nm (.functionDef nm b)
      if f.recursive_calls = 1 then
        if f.divides_problem then "O(n)" else "O(n)"
      else if f.recursive_calls = 2 then
        if f.divides_problem && f.has_slicing then "O(n log n)"
        else if f.divides_problem then "O(log n)"
        else "O(n²)"
      else "O(n³+)"
  | _ => "O(1)"

/-- The facts `_analyze_recursive_space` gathers in its walk. -/
structure SpaceRecursionFacts where
  recursive_calls : Nat
  creates_data_structures : Bool
  divides_problem : Bool
  has_slicing : Bool
deriving DecidableEq, Repr

/-- One step of `_analyze_recursive_space`'s fact-gathering loop. -/
def space_rec_facts_step (func_name : String) (st : SpaceRecursionFacts) :
    PyNode → SpaceRecursionFacts
  | .call (.name id _) _ =>
      if id == func_name then { st with recursive_calls := st.recursive_calls + 1 } else st
  | .listLit _ => { st with creates_data_structures := true }
  | .dictLit _ _ => { st with creates_data_structures := true }
  | .setLit _ => { st with creates_data_structures := true }
  | .listComp _ _ => { st with creates_data_structures := true }
  | .dictComp _ _ _ => { st with creates_data_structures := true }
  | .setComp _ _ => { st with creates_data_structures := true }
  | .subscript _ ix =>
      if is_slice ix then { st with divides_problem := true, has_slicing := true } else st
  | .assign _ v =>
      if halving_assign_value v then { st with divides_problem := true } else st
  | _ => st

/-- The space-pass facts of a function, gathered over `ast.walk(func_node)`. -/
def space_recursion_facts (func_name : String) (func_node : PyNode) : SpaceRecursionFacts :=
  (walk func_node).foldl (space_rec_facts_step func_name) ⟨0, false, false, false⟩

/-- Model of `_analyze_recursive_space(func_node)`: the fixed space table over the
gathered facts. -/
def analyze_recursive_space : PyNode → String
  | .functionDef nm b =>
      let f := space_recursion_facts nm (.functionDef nm b)
      if f.creates_data_structures then
        if f.divides_problem && f.has_slicing then "O(n)" else "O(n²)"
      else
        if f.divides_problem then "O(log n)"
        else if f.recursive_calls = 1 then "O(n)"
        else "O(n²)"
  | _ => "O(1)"

/-! ## Call-cost tables -/

/-- The `builtin_complexities` dict of `_analyze_call_complexity`, with its
`dict.get(func_name, 'O(1)')` default. -/
def builtin_complexities (func_name : String) : String :=
  if func_name = "sorted" then "O(n log n)"
  else if func_name = "max" then "O(n)"
  else if func_name = "min" then "O(n)"
  else if func_name = "sum" then "O(n)"
  else if func_name = "len" then "O(1)"
  else if func_name = "abs" then "O(1)"
  else if func_name = "int" then "O(1)"
  else if func_name = "float" then "O(1)"
  else if func_name = "str" then "O(1)"
  else if func_name = "list" then "O(n)"
  else if func_name = "tuple" then "O(n)"
  else if func_name = "set" then "O(n)"
  else if func_name = "dict" then "O(n)"
  else if func_name = "enumerate" then "O(1)"
  else if func_name = "zip" then "O(1)"
  else if func_name = "range" then "O(1)"
  else if func_name = "reversed" then "O(1)"
  else "O(1)"

/-- The `method_complexities` dict of `_analyze_call_complexity`, with its
`dict.get(attr_name, 'O(1)')` default.  Note the literal `'O(k)'` tokens for
`extend` and `update`. -/
def method_complexities (attr_name : String) : String :=
  if attr_name = "sort" then "O(n log n)"
  else if attr_name = "append" then "O(1)"
  else if attr_name = "pop" then "O(1)"
  else if attr_name = "insert" then "O(n)"
  else if attr_name = "remove" then "O(n)"
  else if attr_name = "index" then "O(n)"
  else if attr_name = "count" then "O(n)"
  else if attr_name = "reverse" then "O(n)"
  else if attr_name = "copy" then "O(n)"
  else if attr_name = "clear" then "O(1)"
  else if attr_name = "extend" then "O(k)"
  else if attr_name = "split" then "O(n)"
  else if attr_name = "join" then "O(n)"
  else if attr_name = "replace" then "O(n)"
  else if attr_name = "strip" then "O(n)"
  else if attr_name = "find" then "O(n)"
  else if attr_name = "get" then "O(1)"
  else if attr_name = "keys" then "O(1)"
  else if attr_name = "values" then "O(1)"
  else if attr_name = "items" then "O(1)"
  else if attr_name = "update" then "O(k)"
  else "O(1)"

/-- Model of `_analyze_call_complexity(call_node)`: dispatch on the call's `func`
shape.  Only ever called on `Call` nodes; other kinds answer the default. -/
def analyze_call_complexity : PyNode → String
  | .call (.name id _) _ => builtin_complexities id
  | .call (.attribute _ attr) _ => method_complexities attr
  | _ => "O(1)"

/-- Model of `_analyze_call_space_complexity(call_node)`. -/
def analyze_call_space_complexity : PyNode → String
  | .call (.name id _) _ =>
      if id = "list" ∨ id = "dict" ∨ id = "set" ∨ id = "tuple" then "O(n)"
      else if id = "range" then "O(1)"
      else if id = "sorted" then "O(n)"
      else "O(1)"
  | .call (.attribute _ attr) _ =>
      if attr = "copy" ∨ attr = "deepcopy" then "O(n)"
      else if attr = "split" ∨ attr = "splitlines" then "O(n)"
      else if attr = "keys" ∨ attr = "values" ∨ attr = "items" then "O(n)"
      else "O(1)"
  | _ => "O(1)"

/-! ## Tree-based time pass -/

mutual
/-- Model of `complexity_of_nodes(nodes, current_depth)` (the inner worker of
`_analyze_function_complexity`), restructured as an accumulator fold: the
running `max_seq_complexity` is the `acc` argument, updated per statement by
`upgrade_complexity`.  A node whose branch adds nothing (the source's
`if children:` guard on an empty child list) contributes `"O(1)"`, and
upgrading by `"O(1)"` leaves the accumulator unchanged, so the uniform fold
is extensionally the source loop. -/
def time_nodes_from (acc : String) : PyNodeList → Nat → String
  | .nil, _ => acc
  | .cons n rest, depth =>
      time_nodes_from (upgrade_complexity acc (time_node_contrib n depth)) rest depth

/-- The contribution one walked statement/expression makes to the running
`max_seq_complexity` at the given nesting depth:
* loops: `combine_complexities(loop_complexity, body_complexity)`, where a
  logarithmic loop costs `'O(log n)'` and has its children evaluated at depth
  `0`, and any other loop costs `_complexity_at_depth(depth+1)` with children
  at `depth+1` (children of `For` are `target, iter, *body, *orelse`; of
  `While`, `test, *body, *orelse`);
* `If`: the upgrade of the two branch complexities at the same depth (the
  test expression is not visited — the source reads only `body`/`orelse`);
* `Call`: the call-cost table (arguments are not visited);
* anything else: its children folded at the same depth. -/
def time_node_contrib : PyNode → Nat → String
  | .forLoop t i b o, depth =>
      if is_logarithmic_loop (.forLoop t i b o) then
        combine_complexities "O(log n)"
          (time_nodes_from (time_nodes_from (upgrade_complexity
            (upgrade_complexity "O(1)" (time_node_contrib t 0))
            (time_node_contrib i 0)) b 0) o 0)
      else
        combine_complexities (complexity_at_depth (depth + 1))
          (time_nodes_from (time_nodes_from (upgrade_complexity
            (upgrade_complexity "O(1)" (time_node_contrib t (depth + 1)))
            (time_node_contrib i (depth + 1))) b (depth + 1)) o (depth + 1))
  | .whileLoop ts b o, depth =>
      if is_logarithmic_loop (.whileLoop ts b o) then
        combine_complexities "O(log n)"
          (time_nodes_from (time_nodes_from
            (upgrade_complexity "O(1)" (time_node_contrib ts 0)) b 0) o 0)
      else
        combine_complexities (complexity_at_depth (depth + 1))
          (time_nodes_from (time_nodes_from
            (upgrade_complexity "O(1)" (time_node_contrib ts (depth + 1)))
            b (depth + 1)) o (depth + 1))
  | .ifStmt _ b o, depth =>
      let body_complexity := time_nodes_from "O(1)" b depth
      let orelse_complexity :=
        match o with
        | .nil => "O(1)"
        | .cons h rest => time_nodes_from "O(1)" (.cons h rest) depth
      upgrade_complexity body_complexity orelse_complexity
  | .call f a, _ => analyze_call_complexity (.call f a)
  | .module b, depth => time_nodes_from "O(1)" b depth
  | .functionDef _ b, depth => time_nodes_from "O(1)" b depth
  | .assign t v, depth =>
      upgrade_complexity (time_nodes_from "O(1)" t depth) (time_node_contrib v depth)
  | .augAssign t _ v, depth =>
      upgrade_complexity (upgrade_complexity "O(1)" (time_node_contrib t depth))
        (time_node_contrib v depth)
  | .exprStmt v, depth => upgrade_complexity "O(1)" (time_node_contrib v depth)
  | .ret (.someN v), depth => upgrade_complexity "O(1)" (time_node_contrib v depth)
  | .ret .noneN, _ => "O(1)"
  | .pass, _ => "O(1)"
  | .name _ _, _ => "O(1)"
  | .attribute v _, depth => upgrade_complexity "O(1)" (time_node_contrib v depth)
  | .binOp l _ r, depth =>
      upgrade_complexity (upgrade_complexity "O(1)" (time_node_contrib l depth))
        (time_node_contrib r depth)
  | .compare l _ cs, depth =>
      time_nodes_from (upgrade_complexity "O(1)" (time_node_contrib l depth)) cs depth
  | .constant _, _ => "O(1)"
  | .subscript v ix, depth =>
      upgrade_complexity (upgrade_complexity "O(1)" (time_node_contrib v depth))
        (time_node_contrib ix depth)
  | .sliceExpr lo hi st, depth =>
      let a1 := match lo with
        | .noneN => "O(1)"
        | .someN x => upgrade_complexity "O(1)" (time_node_contrib x depth)
      let a2 := match hi with
        | .noneN => a1
        | .someN x => upgrade_complexity a1 (time_node_contrib x depth)
      match st with
      | .noneN => a2
      | .someN x => upgrade_complexity a2 (time_node_contrib x depth)
  | .listLit e, depth => time_nodes_from "O(1)" e depth
  | .dictLit k v, depth => time_nodes_from (time_nodes_from "O(1)" k depth) v depth
  | .setLit e, depth => time_nodes_from "O(1)" e depth
  | .listComp e g, depth =>
      time_nodes_from (upgrade_complexity "O(1)" (time_node_contrib e depth)) g depth
  | .setComp e g, depth =>
      time_nodes_from (upgrade_complexity "O(1)" (time_node_contrib e depth)) g depth
  | .dictComp k v g, depth =>
      time_nodes_from (upgrade_complexity (upgrade_complexity "O(1)"
        (time_node_contrib k depth)) (time_node_contrib v depth)) g depth
  | .comprehension t i ifs, depth =>
      time_nodes_from (upgrade_complexity (upgrade_complexity "O(1)"
        (time_node_contrib t depth)) (time_node_contrib i depth)) ifs depth
end

/-- Model of `_analyze_function_complexity(node)`: fold the node's `body` at depth 0. -/
def analyze_function_complexity (node : PyNode) : String :=
  time_nodes_from "O(1)" (body_of node) 0

/-! ## Aggregation (`_calculate_time_complexity` / `_calculate_space_complexity`) -/

/-- The `FunctionDef` nodes found by `ast.walk(tree)`. -/
def function_defs (tree : PyNode) : List PyNode :=
  (walk tree).filter fun n =>
    match n with
    | .functionDef _ _ => true
    | _ => false

/-- The `name` of a `FunctionDef` node. -/
def def_name : PyNode → String
  | .functionDef nm _ => nm
  | _ => ""

/-- Model of `complexities[key] = value` on a dict modelled as an association list:
an existing key keeps its position and gets the new value, a new key is
appended (Python dict insertion-order semantics). -/
def dict_insert (m : List (String × String)) (k v : String) : List (String × String) :=
  if m.any (fun p => p.1 == k) then
    m.map (fun p => if p.1 == k then (k, v) else p)
  else m ++ [(k, v)]

/-- Build the per-function dict of either pass:
`for node in ast.walk(tree): if isinstance(node, FunctionDef):
complexities[node.name] = entry(node)`. -/
def build_function_map (entry : PyNode → String) (tree : PyNode) : List (String × String) :=
  (function_defs tree).foldl (fun m f => dict_insert m (def_name f) (entry f)) []

/-- Python's `max(v :: rest, key=key)`: the first element attaining the
maximal key (a later element replaces the champion only on a strictly
greater key). -/
def py_max_by (key : String → Nat) : String → List String → String
  | acc, [] => acc
  | acc, v :: rest => py_max_by key (if key v > key acc then v else acc) rest

/-- The result shape of one pass: `{'overall': ..., 'functions': ...}` for the
tree passes and `{'overall': ..., 'estimated': True}` for the text passes (an
absent key is modelled by `none` / the default `false`). -/
structure ComplexityReport where
  overall : String
  functions : Option (List (String × String)) := Option.none
  estimated : Bool := false
deriving DecidableEq, Repr

/-- The aggregation shared verbatim by `_calculate_time_complexity` and
`_calculate_space_complexity`: an early `O(1)` return when there are no
functions and the top level is trivial, a synthetic `<module-level>` entry
when the top level is non-trivial, and `max(complexities.values(),
key=self._complexity_weight)` as the overall class.  The empty `match` arm is
unreachable: when the early return is not taken the dict is non-empty (Python
`max` on an empty sequence would raise). -/
def aggregate_report (complexities : List (String × String)) (top_level : String) :
    ComplexityReport :=
  if complexities.isEmpty ∧ top_level = "O(1)" then
    { overall := "O(1)", functions := some [] }
  else
    let complexities :=
      if top_level ≠ "O(1)" then dict_insert complexities "<module-level>" top_level
      else complexities
    match complexities.map (·.2) with
    | [] => { overall := "O(1)", functions := some complexities }
    | v :: rest => { overall := py_max_by complexity_weight v rest, functions := some complexities }

/-- The per-function entry of the time pass: recursive functions go through
the dedicated heuristic, others through the generic walk. -/
def function_time_entry (f : PyNode) : String :=
  if is_recursive_function f then analyze_recursive_complexity f
  else analyze_function_complexity f

/-- Model of `_calculate_time_complexity(tree)`. -/
def calculate_time_complexity (tree : PyNode) : ComplexityReport :=
  aggregate_report (build_function_map function_time_entry tree)
    (analyze_function_complexity tree)

/-! ## Tree-based space pass -/

/-- Model of `_analyze_value_space_complexity(value_node, loop_depth)`: leaf space cost
of an assignment's right-hand side — non-empty literal containers are
constant-size, empty literals and comprehensions may grow, calls go through
the space call table; a non-constant cost inside a loop is escalated to the
class of the enclosing loop depth. -/
def analyze_value_space_complexity (value_node : PyNode) (loop_depth : Nat) : String :=
  let base_space :=
    match value_node with
    | .listLit elts => if elts.len = 0 then "O(n)" else "O(1)"
    | .dictLit keys _ => if keys.len = 0 then "O(n)" else "O(1)"
    | .setLit elts => if elts.len = 0 then "O(n)" else "O(1)"
    | .listComp _ _ => "O(n)"
    | .dictComp _ _ _ => "O(n)"
    | .setComp _ _ => "O(n)"
    | .call f a => analyze_call_space_complexity (.call f a)
    | _ => "O(1)"
  if base_space ≠ "O(1)" ∧ 0 < loop_depth then space_at_depth loop_depth
  else base_space

/-- The `for target in n.targets` loop of the space pass's `Assign` branch:
each `Name` target upgrades the accumulator by the value's space cost. -/
def space_assign_fold (value : PyNode) (loop_depth : Nat) :
    String → PyNodeList → String
  | acc, .nil => acc
  | acc, .cons (.name _ _) rest =>
      space_assign_fold value loop_depth
        (upgrade_complexity acc (analyze_value_space_complexity value loop_depth)) rest
  | acc, .cons _ rest => space_assign_fold value loop_depth acc rest

mutual
/-- Model of `space_complexity_of_nodes(nodes, loop_depth)` (the inner worker of
`_analyze_function_space_complexity`), as an accumulator fold.  `root` is the
closure's captured `node`: the function or module being scored, used by the
`n != node` identity guard of the `FunctionDef` branch.  Python compares
object identity there; within one tree a proper descendant is a strictly
smaller term, so it can never be structurally equal to the root either, and
structural equality models the guard faithfully. -/
def space_nodes_from (root : PyNode) (acc : String) : PyNodeList -> Nat -> String
  | .nil, _ => acc
  | .cons n rest, loop_depth =>
      space_nodes_from root (space_step root acc n loop_depth) rest loop_depth

/-- The update one walked node makes to the running space accumulator:
* `Assign`: upgrade by the value's space cost once per `Name` target;
* loops: children (`target, iter, *body, *orelse` for `For`;
  `test, *body, *orelse` for `While`) folded at `loop_depth+1`; an
  accumulation hit upgrades by `_space_at_depth(loop_depth+1)`; a non-trivial
  body space is folded in afterwards;
* `FunctionDef`: a *different*, recursive nested function folds in its
  recursive space (a non-recursive nested function contributes nothing, not
  even its body);
* `Call`: the space call table (arguments are not visited);
* anything else: its children folded at the same depth and upgraded into the
  accumulator (an empty child list contributes `"O(1)"`, which upgrades to
  nothing, matching the source's `if children:` guard). -/
def space_step (root : PyNode) (acc : String) : PyNode -> Nat -> String
  | .assign t v, loop_depth => space_assign_fold v loop_depth acc t
  | .forLoop t i b o, loop_depth =>
      let body_space :=
        space_nodes_from root (space_nodes_from root (space_step root
          (space_step root "O(1)" t (loop_depth + 1)) i (loop_depth + 1))
          b (loop_depth + 1)) o (loop_depth + 1)
      let acc :=
        if has_accumulating_operations (.forLoop t i b o) then
          upgrade_complexity acc (space_at_depth (loop_depth + 1))
        else acc
      if body_space != "O(1)" then upgrade_complexity acc body_space else acc
  | .whileLoop ts b o, loop_depth =>
      let body_space :=
        space_nodes_from root (space_nodes_from root
          (space_step root "O(1)" ts (loop_depth + 1)) b (loop_depth + 1)) o (loop_depth + 1)
      let acc :=
        if has_accumulating_operations (.whileLoop ts b o) then
          upgrade_complexity acc (space_at_depth (loop_depth + 1))
        else acc
      if body_space != "O(1)" then upgrade_complexity acc body_space else acc
  | .functionDef nm b, _ =>
      if (PyNode.functionDef nm b != root) && is_recursive_function (.functionDef nm b) then
        upgrade_complexity acc (analyze_recursive_space (.functionDef nm b))
      else acc
  | .call f a, _ => upgrade_complexity acc (analyze_call_space_complexity (.call f a))
  | .module b, loop_depth =>
      upgrade_complexity acc (space_nodes_from root "O(1)" b loop_depth)
  | .augAssign t _ v, loop_depth =>
      upgrade_complexity acc
        (space_step root (space_step root "O(1)" t loop_depth) v loop_depth)
  | .ifStmt ts b o, loop_depth =>
      upgrade_complexity acc (space_nodes_from root (space_nodes_from root
        (space_step root "O(1)" ts loop_depth) b loop_depth) o loop_depth)
  | .exprStmt v, loop_depth =>
      upgrade_complexity acc (space_step root "O(1)" v loop_depth)
  | .ret (.someN v), loop_depth =>
      upgrade_complexity acc (space_step root "O(1)" v loop_depth)
  | .ret .noneN, _ => acc
  | .pass, _ => acc
  | .name _ _, _ => acc
  | .attribute v _, loop_depth =>
      upgrade_complexity acc (space_step root "O(1)" v loop_depth)
  | .binOp l _ r, loop_depth =>
      upgrade_complexity acc
        (space_step root (space_step root "O(1)" l loop_depth) r loop_depth)
  | .compare l _ cs, loop_depth =>
      upgrade_complexity acc
        (space_nodes_from root (space_step root "O(1)" l loop_depth) cs loop_depth)
  | .constant _, _ => acc
  | .subscript v ix, loop_depth =>
      upgrade_complexity acc
        (space_step root (space_step root "O(1)" v loop_depth) ix loop_depth)
  | .sliceExpr lo hi st, loop_depth =>
      let a1 := match lo with
        | .noneN => "O(1)"
        | .someN x => space_step root "O(1)" x loop_depth
      let a2 := match hi with
        | .noneN => a1
        | .someN x => space_step root a1 x loop_depth
      let a3 := match st with
        | .noneN => a2
        | .someN x => space_step root a2 x loop_depth
      upgrade_complexity acc a3
  | .listLit e, loop_depth =>
      upgrade_complexity acc (space_nodes_from root "O(1)" e loop_depth)
  | .dictLit k v, loop_depth =>
      upgrade_complexity acc
        (space_nodes_from root (space_nodes_from root "O(1)" k loop_depth) v loop_depth)
  | .setLit e, loop_depth =>
      upgrade_complexity acc (space_nodes_from root "O(1)" e loop_depth)
  | .listComp e g, loop_depth =>
      upgrade_complexity acc
        (space_nodes_from root (space_step root "O(1)" e loop_depth) g loop_depth)
  | .setComp e g, loop_depth =>
      upgrade_complexity acc
        (space_nodes_from root (space_step root "O(1)" e loop_depth) g loop_depth)
  | .dictComp k v g, loop_depth =>
      upgrade_complexity acc (space_nodes_from root
        (space_step root (space_step root "O(1)" k loop_depth) v loop_depth) g loop_depth)
  | .comprehension t i ifs, loop_depth =>
      upgrade_complexity acc (space_nodes_from root
        (space_step root (space_step root "O(1)" t loop_depth) i loop_depth) ifs loop_depth)
end

/-- Model of `_analyze_function_space_complexity(node)`: recursive functions
(`hasattr(node, 'name')` holds only for `FunctionDef` among the modelled
kinds) go through the dedicated heuristic, everything else folds its `body`
at depth 0 with itself as the captured root. -/
def analyze_function_space_complexity (node : PyNode) : String :=
  match node with
  | .functionDef nm b =>
      if is_recursive_function (.functionDef nm b) then
        analyze_recursive_space (.functionDef nm b)
      else space_nodes_from (.functionDef nm b) "O(1)" b 0
  | n => space_nodes_from n "O(1)" (body_of n) 0

/-- The per-function entry of the space pass. -/
def function_space_entry (f : PyNode) : String :=
  if is_recursive_function f then analyze_recursive_space f
  else analyze_function_space_complexity f

/-- Model of `_calculate_space_complexity(tree)`. -/
def calculate_space_complexity (tree : PyNode) : ComplexityReport :=
  aggregate_report (build_function_map function_space_entry tree)
    (analyze_function_space_complexity tree)

/-! ## Text-based pass (Java / C / C++)

Source text is modelled as a `List Char`.  The handful of regular expressions
the source uses are modelled as deterministic character scanners; each is
deterministic because in every pattern a variable-length piece (`\s*`, `\w+`,
`[^)]*`, ...) is followed by a character its class cannot consume, so greedy
matching never needs to backtrack.  `\w`/`\s` are modelled over ASCII, which
covers every token the patterns look for. -/

/-- Python `\s` (also the character class `str.strip` removes). -/
def is_py_space (c : Char) : Bool :=
  c = ' ' || c = '\t' || c = '\n' || c = '\r' || c = '\x0b' || c = '\x0c'

/-- Python `\w` over ASCII. -/
def is_word_char (c : Char) : Bool :=
  c.isAlphanum || c = '_'

/-- Model of `str.split('\n')` (a trailing newline yields a trailing empty line,
exactly as in Python). -/
def split_lines : List Char → List (List Char)
  | [] => [[]]
  | c :: rest =>
      if c = '\n' then [] :: split_lines rest
      else
        match split_lines rest with
        | [] => [[c]]
        | l :: ls => (c :: l) :: ls

/-- Model of `str.strip()`. -/
def py_strip (l : List Char) : List Char :=
  ((l.dropWhile is_py_space).reverse.dropWhile is_py_space).reverse

/-- Model of `str.endswith('}')`. -/
def ends_with_brace : List Char → Bool
  | [] => false
  | [c] => c = '}'
  | _ :: c :: rest => ends_with_brace (c :: rest)

/-- Consume a literal prefix. -/
def eat_lit : List Char → List Char → Option (List Char)
  | [], s => some s
  | k :: ks, c :: cs => if k = c then eat_lit ks cs else none
  | _ :: _, [] => none

/-- Consume a (possibly empty) greedy run of characters matching `p`. -/
def eat_many0 (p : Char → Bool) : List Char → List Char
  | c :: cs => if p c then eat_many0 p cs else c :: cs
  | [] => []

/-- Consume a non-empty greedy run of characters matching `p`. -/
def eat_many1 (p : Char → Bool) : List Char → Option (List Char)
  | c :: cs => if p c then some (eat_many0 p cs) else none
  | [] => none

/-- Does `\s*\(` match here? -/
def spaces_then_paren : List Char → Bool
  | [] => false
  | c :: cs => if c = '(' then true else if is_py_space c then spaces_then_paren cs else false

/-- Does the literal `kw` followed by `\s*\(` match at the start of `s`? -/
def kw_then_paren (kw : List Char) (s : List Char) : Bool :=
  match eat_lit kw s with
  | some rest => spaces_then_paren rest
  | none => false

/-- Model of `re.search(r'\b<kw>\s*\(', s)` for a keyword starting with a word
character: some position with no word character before it starts a match.
`prev` is the character before the current position (`none` at the start). -/
def search_kw_paren (kw : List Char) : Option Char → List Char → Bool
  | _, [] => false
  | prev, c :: cs =>
      ((match prev with
        | Option.none => true
        | Option.some p => !is_word_char p) && kw_then_paren kw (c :: cs))
      || search_kw_paren kw (some c) cs

/-- Model of `re.search(r'\.sort\s*\(', s)` (no word boundary: a literal dot). -/
def search_dot_sort : List Char → Bool
  | [] => false
  | c :: cs => (c = '.' && kw_then_paren "sort".data cs) || search_dot_sort cs

/-- The sort-token check of `_estimate_complexity_from_text`:
`re.search(r'\bsort\s*\(', code) or re.search(r'\.sort\s*\(', code)`. -/
def has_sort_call (code : List Char) : Bool :=
  search_kw_paren "sort".data Option.none code || search_dot_sort code

/-- The loop-keyword test of the depth scan:
`re.search(r'\bfor\s*\(', stripped) or re.search(r'\bwhile\s*\(', stripped)`
(for the space scan the source uses the single pattern
`\b(for|while)\s*\(`, which matches the same lines). -/
def matches_loop_keyword (stripped : List Char) : Bool :=
  search_kw_paren "for".data Option.none stripped ||
    search_kw_paren "while".data Option.none stripped

/-- The line scan of `_estimate_complexity_from_text`: each loop-keyword line
increments the running depth (recording the maximum), each other line that
ends with `}` decrements it when positive. -/
def scan_loop_depth : List (List Char) → Nat → Nat → Nat
  | [], _, max_depth => max_depth
  | line :: rest, current_depth, max_depth =>
      let stripped := py_strip line
      if matches_loop_keyword stripped then
        scan_loop_depth rest (current_depth + 1) (max max_depth (current_depth + 1))
      else if ends_with_brace stripped && decide (0 < current_depth) then
        scan_loop_depth rest (current_depth - 1) max_depth
      else scan_loop_depth rest current_depth max_depth

/-- Model of `_estimate_complexity_from_text(code, language)`: the depth scan chooses
the class, then a sort token upgrades an `O(1)` result — and only an `O(1)`
result — to `O(n log n)`.  (The `language` parameter only selects the regex
set, which is the same for all three callers, so it is dropped here.)  The
result dict has no `functions` key and `estimated=True`. -/
def estimate_complexity_from_text (code : List Char) : ComplexityReport :=
  let max_depth := scan_loop_depth (split_lines code) 0 0
  let complexity :=
    if max_depth = 0 then "O(1)"
    else if max_depth = 1 then "O(n)"
    else if max_depth = 2 then "O(n²)"
    else "O(n³+)"
  let complexity :=
    if has_sort_call code then (if complexity = "O(1)" then "O(n log n)" else complexity)
    else complexity
  { overall := complexity, estimated := true }

/-- Model of `new\s+\w+\s*\[` at this position. -/
def new_array_at (s : List Char) : Bool :=
  match eat_lit "new".data s with
  | none => false
  | some s1 =>
      match eat_many1 is_py_space s1 with
      | none => false
      | some s2 =>
          match eat_many1 is_word_char s2 with
          | none => false
          | some s3 =>
              match eat_many0 is_py_space s3 with
              | '[' :: _ => true
              | _ => false

/-- Model of `malloc\s*\(` at this position. -/
def malloc_at (s : List Char) : Bool :=
  match eat_lit "malloc".data s with
  | some rest => spaces_then_paren rest
  | none => false

/-- Model of `new\s+\w+` at this position. -/
def new_alloc_at (s : List Char) : Bool :=
  match eat_lit "new".data s with
  | none => false
  | some s1 =>
      match eat_many1 is_py_space s1 with
      | none => false
      | some s2 => (eat_many1 is_word_char s2).isSome

/-- Model of `new\s+\w+\s*\[\s*\]\s*\[\s*\]` (a 2-D array allocation) at this
position. -/
def new_2d_at (s : List Char) : Bool :=
  match eat_lit "new".data s with
  | none => false
  | some s1 =>
      match eat_many1 is_py_space s1 with
      | none => false
      | some s2 =>
          match eat_many1 is_word_char s2 with
          | none => false
          | some s3 =>
              match eat_many0 is_py_space s3 with
              | '[' :: s4 =>
                  (match eat_many0 is_py_space s4 with
                   | ']' :: s5 =>
                      (match eat_many0 is_py_space s5 with
                       | '[' :: s6 =>
                          (match eat_many0 is_py_space s6 with
                           | ']' :: _ => true
                           | _ => false)
                       | _ => false)
                   | _ => false)
              | _ => false

/-- Model of `re.search(pat_at, s)`: does the position pattern match at some suffix? -/
def search_pos (p : List Char → Bool) : List Char → Bool
  | [] => p []
  | c :: cs => p (c :: cs) || search_pos p cs

/-- One of the collection-type names
`(ArrayList|Vector|HashMap|HashSet|LinkedList)` occurs in the text. -/
def has_collection_type (code : List Char) : Bool :=
  search_pos (fun s =>
    (eat_lit "ArrayList".data s).isSome || (eat_lit "Vector".data s).isSome ||
    (eat_lit "HashMap".data s).isSome || (eat_lit "HashSet".data s).isSome ||
    (eat_lit "LinkedList".data s).isSome) code

/-- Consume `[^stop]*` followed by the `stop` character itself. -/
def eat_until (stop : Char) : List Char → Option (List Char)
  | [] => none
  | c :: cs => if c = stop then some cs else eat_until stop cs

/-- The tail `[^}]*\1\s*\(` of the recursion pattern: scanning forward
through non-`}` characters, does the captured word followed by `\s*\(` match
somewhere before the first `}`? -/
def rec_pattern_close (w : List Char) : List Char → Bool
  | [] => false
  | c :: cs =>
      (match eat_lit w (c :: cs) with
       | some s1 => spaces_then_paren s1
       | none => false)
      || (c ≠ '}' && rec_pattern_close w cs)

/-- Model of `(\w+)\s*\([^)]*\)\s*\{[^}]*\1\s*\(` at this position: the capture is
the maximal word run here (a shorter capture leaves a word character where
`\s*\(` needs a parenthesis, so the regex engine's backtracking can never
choose one). -/
def rec_pattern_at : List Char → Bool
  | [] => false
  | c :: cs =>
      if is_word_char c then
        let w := c :: cs.takeWhile is_word_char
        let rest := cs.dropWhile is_word_char
        match eat_many0 is_py_space rest with
        | '(' :: r2 =>
            (match eat_until ')' r2 with
             | some r3 =>
                (match eat_many0 is_py_space r3 with
                 | '{' :: r4 => rec_pattern_close w r4
                 | _ => false)
             | none => false)
        | _ => false
      else false

/-- The per-line allocation scan of `_estimate_space_complexity_from_text`:
loop-keyword lines enter a loop region, closing-brace lines leave it, and an
allocation token (`new\s+\w+` or `malloc\s*\(`) found inside upgrades the
running space class by the region depth (`O(n)` at depth 1, `O(n²)` at depth
2 or more). -/
def space_loop_scan : List (List Char) → Bool → Nat → String → String
  | [], _, _, space => space
  | line :: rest, in_loop, loop_depth, space =>
      let stripped := py_strip line
      if matches_loop_keyword stripped then
        space_loop_scan rest true (loop_depth + 1) space
      else if ends_with_brace stripped && in_loop then
        let d := loop_depth - 1
        space_loop_scan rest (if d = 0 then false else in_loop) d space
      else if in_loop && (search_pos new_alloc_at stripped || search_pos malloc_at stripped) then
        if loop_depth = 1 then
          space_loop_scan rest in_loop loop_depth (upgrade_complexity space "O(n)")
        else if 2 ≤ loop_depth then
          space_loop_scan rest in_loop loop_depth (upgrade_complexity space "O(n²)")
        else space_loop_scan rest in_loop loop_depth space
  else space_loop_scan rest in_loop loop_depth space

/-- Model of `_estimate_space_complexity_from_text(code, language)`: four sequential
whole-text assignments (allocation, collection types, textual recursion,
2-D arrays), then the per-line loop-region scan. -/
def estimate_space_complexity_from_text (code : List Char) : ComplexityReport :=
  let space := "O(1)"
  let space :=
    if search_pos new_array_at code || search_pos malloc_at code then "O(n)" else space
  let space := if has_collection_type code then "O(n)" else space
  let space := if search_pos rec_pattern_at code then "O(n)" else space
  let space := if search_pos new_2d_at code then "O(n²)" else space
  let space := space_loop_scan (split_lines code) false 0 space
  { overall := space, estimated := true }

/-! ## Per-file and per-directory drivers -/

/-- The supported languages. -/
inductive Lang where
  | python | java | c | cpp
deriving DecidableEq, Repr

/-- The `language_map` dict keyed by lower-cased file extension. -/
def language_map (ext : String) : Option Lang :=
  if ext = ".py" then some .python
  else if ext = ".java" then some .java
  else if ext = ".c" then some .c
  else if ext = ".cpp" then some .cpp
  else if ext = ".cc" then some .cpp
  else if ext = ".cxx" then some .cpp
  else if ext = ".c++" then some .cpp
  else if ext = ".h" then some .c
  else if ext = ".hpp" then some .cpp
  else if ext = ".hh" then some .cpp
  else if ext = ".hxx" then some .cpp
  else none

/-- One source file as the engine sees it.  `ext` stands for
`os.path.splitext(path)[1].lower()` (the path library is external), `text`
for the file's contents, and `parsed` for the outcome of the external
`ast.parse(text)`: the tree on success, or the `SyntaxError`'s
`(lineno, msg)` on failure.  `parsed` is consulted only for Python files. -/
structure SourceFile where
  path : String
  ext : String
  text : List Char
  parsed : Except (Nat × String) PyNode

/-- The `metrics` dict of one result (an absent key is `none`). -/
structure Metrics where
  lines_of_code : Option Nat := Option.none
  comment_lines : Option Nat := Option.none
  blank_lines : Option Nat := Option.none
  time_complexity : Option ComplexityReport := Option.none
  space_complexity : Option ComplexityReport := Option.none
deriving DecidableEq, Repr

/-- The result of one `analyze_file` call. -/
structure AnalysisResult where
  issues : List (String × List String)
  metrics : Metrics
  file_path : String
  language : Option Lang
deriving DecidableEq, Repr

/-- The variables `_check_unused_variables` reports: names stored but never
loaded.  Python iterates the set difference, whose order is unspecified;
first-occurrence order of the walk is chosen here. -/
def unused_variable_issues (tree : PyNode) : List String :=
  let store_names := (walk tree).filterMap fun n =>
    match n with
    | .name i .store => some i
    | _ => Option.none
  let load_names := (walk tree).filterMap fun n =>
    match n with
    | .name i .load => some i
    | _ => Option.none
  ((store_names.filter (fun v => ¬ v ∈ load_names)).eraseDups).map
    (fun v => "Unused variable: " ++ v)

/-- Lines whose stripped form starts with `#`
(`_calculate_metrics`' comment counting). -/
def python_comment_count (code : List Char) : Nat :=
  ((split_lines code).filter fun l =>
    match py_strip l with
    | '#' :: _ => true
    | _ => false).length

/-- Model of `_analyze_python(code)`: on a parse failure, one `Syntax Errors` issue
carrying `f"Line {e.lineno}: {e.msg}"` and no metrics at all; on success,
the time pass, the line metrics, the unused-variable scan, and the space
pass (the `'time_complexity' not in metrics` re-check never fires — the
time pass always stores its key). -/
def analyze_python (f : SourceFile) : List (String × List String) × Metrics :=
  match f.parsed with
  | .error (lineno, msg) =>
      ([("Syntax Errors", ["Line " ++ toString lineno ++ ": " ++ msg])], {})
  | .ok tree =>
      let issues :=
        match unused_variable_issues tree with
        | [] => []
        | msgs => [("Unused Variables", msgs)]
      (issues,
        { lines_of_code := some (split_lines f.text).length
          comment_lines := some (python_comment_count f.text)
          time_complexity := some (calculate_time_complexity tree)
          space_complexity := some (calculate_space_complexity tree) })

/-- Scanner for non-overlapping occurrences of `//.*`: the flag records
being inside a match, which `.*` extends to the end of the line (the
newline itself is processed normally, so the search resumes there exactly
as `re.findall` does). -/
def line_comment_scan : Bool → List Char → Nat
  | _, [] => 0
  | true, c :: rest => line_comment_scan (c ≠ '\n') rest
  | false, '/' :: '/' :: rest => 1 + line_comment_scan true rest
  | false, _ :: rest => line_comment_scan false rest

/-- Non-overlapping occurrences of `//.*`. -/
def line_comment_count (s : List Char) : Nat := line_comment_scan false s

/-- Scanner for non-overlapping occurrences of the lazy block pattern
`/\*[\s\S]*?\*/`: the flag records an open `/*`; a match is counted only at
its `*/` terminator (an unterminated `/*` matches nothing), and laziness
means the first terminator closes the match. -/
def block_comment_scan : Bool → List Char → Nat
  | _, [] => 0
  | false, '/' :: '*' :: rest => block_comment_scan true rest
  | false, _ :: rest => block_comment_scan false rest
  | true, '*' :: '/' :: rest => 1 + block_comment_scan false rest
  | true, _ :: rest => block_comment_scan true rest

/-- Non-overlapping occurrences of `/\*[\s\S]*?\*/`. -/
def block_comment_count (s : List Char) : Nat := block_comment_scan false s

/-- Model of `_calculate_basic_metrics(code, language)` for the C-family languages:
line count, the two comment-pattern counts summed, and blank lines. -/
def basic_metrics (code : List Char) : Metrics :=
  let lines := split_lines code
  { lines_of_code := some lines.length
    comment_lines := some (line_comment_count code + block_comment_count code)
    blank_lines := some ((lines.filter fun l => py_strip l = []).length) }

/-- Model of `analyze_file`, given the already-read file: dispatch on the extension's
language.  The Java/C/C++ issue scans (`_analyze_java_patterns`, ...) are
not modelled — the spec places them out of scope and they only append issue
strings, touching no metrics — so a C-family result carries empty `issues`
here.  The source's `try/except` wrapper (`General Errors` on an I/O or
internal failure) has no counterpart because every modelled operation is
total. -/
def analyze_file (f : SourceFile) : AnalysisResult :=
  match language_map f.ext with
  | Option.none =>
      { issues := [("General Errors", ["Unsupported file type: " ++ f.ext])]
        metrics := {}
        file_path := f.path
        language := Option.none }
  | some .python =>
      let (issues, metrics) := analyze_python f
      { issues := issues, metrics := metrics, file_path := f.path, language := some .python }
  | some lang =>
      { issues := []
        metrics :=
          { basic_metrics f.text with
            time_complexity := some (estimate_complexity_from_text f.text)
            space_complexity := some (estimate_space_complexity_from_text f.text) }
        file_path := f.path
        language := some lang }

/-- Model of `analyze_directory(directory)`: one `analyze_file` result per file whose
extension is in `language_map`, in traversal order (`os.walk` is the
external traversal; its file sequence is the input list). -/
def analyze_directory (files : List SourceFile) : List AnalysisResult :=
  (files.filter fun f => (language_map f.ext).isSome).map analyze_file

/-! ## Specification-side definitions

These follow the *claim's* wording for the text-based time rule, written
independently of the source structure so that refinement theorems comparing
the two have content. -/

/-- The running depth after each line, per the claim's description: a line
matching a for/while keyword increments the depth, a closing-brace line
decrements it with the depth floored at zero, any other line leaves it. -/
def claimed_depth_trace : List (List Char) → Nat → List Nat
  | [], _ => []
  | line :: rest, d =>
      let stripped := py_strip line
      let d' :=
        if matches_loop_keyword stripped then d + 1
        else if ends_with_brace stripped then d - 1
        else d
      d' :: claimed_depth_trace rest d'

/-- Maximum of a list of naturals (zero for the empty list). -/
def nat_list_max : List Nat → Nat
  | [] => 0
  | d :: rest => max d (nat_list_max rest)

/-- The claim's depth-to-class table. -/
def claimed_depth_class (max_depth : Nat) : String :=
  if max_depth = 0 then "O(1)"
  else if max_depth = 1 then "O(n)"
  else if max_depth = 2 then "O(n²)"
  else "O(n³+)"

/-- The text-based time class exactly as claim C5 words it: the class from
the maximum depth reached, "upgraded to at least `O(n log n)` whenever a
sort-style call token is present anywhere and no higher class was already
found". -/
def claimed_text_time_overall (code : List Char) : String :=
  let base := claimed_depth_class (nat_list_max (claimed_depth_trace (split_lines code) 0))
  if has_sort_call code ∧ complexity_index base < complexity_index "O(n log n)" then
    "O(n log n)"
  else base

/-- The amended sort rule: the sort-token upgrade applies only when the
depth-derived class is exactly `O(1)`. -/
def amended_text_time_overall (code : List Char) : String :=
  let base := claimed_depth_class (nat_list_max (claimed_depth_trace (split_lines code) 0))
  if has_sort_call code ∧ base = "O(1)" then "O(n log n)" else base

/-! ## Concrete example programs -/

/-- Model of `def f(): for x in arr: s = s + x` — one linear loop, no calls. -/
def ex_single_loop_fn : PyNode :=
  .functionDef "f"
    (.cons (.forLoop (.name "x" .store) (.name "arr" .load)
      (.cons (.assign (.cons (.name "s" .store) .nil)
        (.binOp (.name "s" .load) .add (.name "x" .load))) .nil) .nil) .nil)

/-- Model of `def g(): for i in a: for j in b: s = s + j` — two nested loops. -/
def ex_nested_loops_fn : PyNode :=
  .functionDef "g"
    (.cons (.forLoop (.name "i" .store) (.name "a" .load)
      (.cons (.forLoop (.name "j" .store) (.name "b" .load)
        (.cons (.assign (.cons (.name "s" .store) .nil)
          (.binOp (.name "s" .load) .add (.name "j" .load))) .nil) .nil) .nil) .nil) .nil)

/-- Model of `while lo <= hi: mid = (lo + hi) // 2` — a halving loop. -/
def ex_halving_loop : PyNode :=
  .whileLoop (.compare (.name "lo" .load) [.ltE] (.cons (.name "hi" .load) .nil))
    (.cons (.assign (.cons (.name "mid" .store) .nil)
      (.binOp (.binOp (.name "lo" .load) .add (.name "hi" .load))
        .floorDiv (.constant (.intC 2)))) .nil) .nil

/-- Model of `def h(): while lo <= hi: mid = (lo + hi) // 2`. -/
def ex_halving_fn : PyNode := .functionDef "h" (.cons ex_halving_loop .nil)

/-- Model of `def k(): while lo <= hi: mid = (lo + hi) // 2; for j in arr: s = s + j`
— a halving loop with a nested linear loop in its body. -/
def ex_halving_linear_fn : PyNode :=
  .functionDef "k"
    (.cons (.whileLoop (.compare (.name "lo" .load) [.ltE] (.cons (.name "hi" .load) .nil))
      (.cons (.assign (.cons (.name "mid" .store) .nil)
        (.binOp (.binOp (.name "lo" .load) .add (.name "hi" .load))
          .floorDiv (.constant (.intC 2))))
       (.cons (.forLoop (.name "j" .store) (.name "arr" .load)
        (.cons (.assign (.cons (.name "s" .store) .nil)
          (.binOp (.name "s" .load) .add (.name "j" .load))) .nil) .nil) .nil)) .nil) .nil)

/-- Model of `while i < n: i = i + 2` — a counting-up loop whose variable never
shrinks (the guard comparison alone triggers the logarithmic detector). -/
def ex_count_up_while : PyNode :=
  .whileLoop (.compare (.name "i" .load) [.lt] (.cons (.name "n" .load) .nil))
    (.cons (.assign (.cons (.name "i" .store) .nil)
      (.binOp (.name "i" .load) .add (.constant (.intC 2)))) .nil) .nil

/-- Model of `for x in arr: c = c + 1` — a plain scan whose counter update matches
the `x = y + 1` pointer-step pattern. -/
def ex_incr_for : PyNode :=
  .forLoop (.name "x" .store) (.name "arr" .load)
    (.cons (.assign (.cons (.name "c" .store) .nil)
      (.binOp (.name "c" .load) .add (.constant (.intC 1)))) .nil) .nil

/-- The body of `def fib(n): return fib(n - 1) + fib(n - 2)`. -/
def ex_fib_body : PyNodeList :=
  .cons (.ret (.someN (.binOp
    (.call (.name "fib" .load)
      (.cons (.binOp (.name "n" .load) .sub (.constant (.intC 1))) .nil))
    .add
    (.call (.name "fib" .load)
      (.cons (.binOp (.name "n" .load) .sub (.constant (.intC 2))) .nil))))) .nil

/-- Model of `def fib(n): return fib(n - 1) + fib(n - 2)` — two self-calls, no
division, no containers. -/
def ex_fib : PyNode := .functionDef "fib" ex_fib_body

/-- A module holding `fib` and a top-level linear loop. -/
def ex_module : PyNode :=
  .module (.cons ex_fib (.cons (.forLoop (.name "x" .store) (.name "arr" .load)
    (.cons (.exprStmt (.call (.name "print" .load) (.cons (.name "x" .load) .nil))) .nil)
    .nil) .nil))

/-- A well-formed Python file (`x = 1`). -/
def ex_good_py_file : SourceFile :=
  { path := "a.py", ext := ".py", text := ("x = 1").data
    parsed := .ok (.module (.cons (.assign (.cons (.name "x" .store) .nil)
      (.constant (.intC 1))) .nil)) }

/-- A Python file whose parse fails at line 3. -/
def ex_bad_py_file : SourceFile :=
  { path := "b.py", ext := ".py", text := ("def f(:").data
    parsed := .error (3, "invalid syntax") }

/-- A Java file. -/
def ex_java_file : SourceFile :=
  { path := "c.java", ext := ".java"
    text := ("for (int i = 0; i < n; i++) f(i);").data
    parsed := .ok (.module .nil) }

/-- An unsupported file. -/
def ex_txt_file : SourceFile :=
  { path := "d.txt", ext := ".txt", text := ("hello").data
    parsed := .ok (.module .nil) }

/-- The input refuting claim C5's sort rule: one loop line (depth 1) and a
sort call. -/
def c5_input : List Char :=
  ("for (i = 0; i < n; i++)\n    a.sort(b);").data

/-! ## Helper lemmas -/

theorem upgrade_complexity_mem {a b : String} (ha : a ∈ produced_classes)
    (hb : b ∈ produced_classes ∨ complexity_index b = 0) :
    upgrade_complexity a b ∈ produced_classes := by
  unfold upgrade_complexity
  split
  · rcases hb with hb | hb
    · exact hb
    · omega
  · exact ha

theorem upgrade_complexity_left (a b : String) (h : complexity_index b ≤ complexity_index a) :
    upgrade_complexity a b = a := by
  unfold upgrade_complexity
  split
  · omega
  · rfl

theorem combine_complexities_mem {a b : String} (ha : a ∈ produced_classes)
    (hb : b ∈ produced_classes) : combine_complexities a b ∈ produced_classes := by
  unfold combine_complexities
  split
  · exact hb
  split
  · exact ha
  split
  · decide
  split
  · exact hb
  · exact ha

theorem complexity_at_depth_mem (d : Nat) : complexity_at_depth d ∈ produced_classes := by
  unfold complexity_at_depth
  split_ifs <;> decide

theorem space_at_depth_mem (d : Nat) : space_at_depth d ∈ produced_classes := by
  unfold space_at_depth
  split_ifs <;> decide

theorem ite_mem_of {α : Type} {c : Prop} [Decidable c] {a b : α} {l : List α}
    (ha : a ∈ l) (hb : b ∈ l) : (if c then a else b) ∈ l := by
  split <;> assumption

theorem builtin_complexities_mem (s : String) :
    builtin_complexities s ∈ produced_classes := by
  unfold builtin_complexities
  repeat' apply ite_mem_of
  all_goals decide

theorem method_complexities_mem (s : String) :
    method_complexities s ∈ produced_classes ∨ method_complexities s = "O(k)" := by
  have h : method_complexities s ∈ ("O(k)" :: produced_classes) := by
    unfold method_complexities
    repeat' apply ite_mem_of
    all_goals decide
  rcases List.mem_cons.mp h with h | h
  · exact Or.inr h
  · exact Or.inl h

theorem analyze_call_complexity_mem (n : PyNode) :
    analyze_call_complexity n ∈ produced_classes ∨ analyze_call_complexity n = "O(k)" := by
  unfold analyze_call_complexity
  split
  · exact Or.inl (builtin_complexities_mem _)
  · exact method_complexities_mem _
  · left; decide

theorem analyze_call_space_complexity_mem (n : PyNode) :
    analyze_call_space_complexity n ∈ produced_classes := by
  unfold analyze_call_space_complexity
  split <;> first
    | (split_ifs <;> decide)
    | decide

theorem analyze_recursive_complexity_mem (n : PyNode) :
    analyze_recursive_complexity n ∈ produced_classes := by
  unfold analyze_recursive_complexity
  split
  · dsimp only
    split_ifs <;> decide
  · decide

theorem analyze_recursive_space_mem (n : PyNode) :
    analyze_recursive_space n ∈ produced_classes := by
  unfold analyze_recursive_space
  split
  · dsimp only
    split_ifs <;> decide
  · decide

theorem analyze_value_space_complexity_mem (v : PyNode) (d : Nat) :
    analyze_value_space_complexity v d ∈ produced_classes := by
  cases v <;> unfold analyze_value_space_complexity <;> dsimp only <;>
    split_ifs <;>
      first
        | decide
        | exact space_at_depth_mem d
        | exact analyze_call_space_complexity_mem _

mutual
/-- Every statement contribution of the time pass is a produced class or an
unrecognized weight-zero token (the `'O(k)'` of the method table). -/
theorem time_node_contrib_mem : (n : PyNode) → (depth : Nat) →
    time_node_contrib n depth ∈ produced_classes ∨
      complexity_index (time_node_contrib n depth) = 0
  | .forLoop t i b o, depth => by
      simp only [time_node_contrib]
      split <;> left
      · exact combine_complexities_mem (by decide)
          (time_nodes_from_mem o _ 0 (time_nodes_from_mem b _ 0
            (upgrade_complexity_mem (upgrade_complexity_mem (by decide)
              (time_node_contrib_mem t 0)) (time_node_contrib_mem i 0))))
      · exact combine_complexities_mem (complexity_at_depth_mem _)
          (time_nodes_from_mem o _ (depth + 1) (time_nodes_from_mem b _ (depth + 1)
            (upgrade_complexity_mem (upgrade_complexity_mem (by decide)
              (time_node_contrib_mem t (depth + 1))) (time_node_contrib_mem i (depth + 1)))))
  | .whileLoop ts b o, depth => by
      simp only [time_node_contrib]
      split <;> left
      · exact combine_complexities_mem (by decide)
          (time_nodes_from_mem o _ 0 (time_nodes_from_mem b _ 0
            (upgrade_complexity_mem (by decide) (time_node_contrib_mem ts 0))))
      · exact combine_complexities_mem (complexity_at_depth_mem _)
          (time_nodes_from_mem o _ (depth + 1) (time_nodes_from_mem b _ (depth + 1)
            (upgrade_complexity_mem (by decide) (time_node_contrib_mem ts (depth + 1)))))
  | .ifStmt ts b o, depth => by
      cases o <;> simp only [time_node_contrib] <;> left
      · exact upgrade_complexity_mem (time_nodes_from_mem b _ depth (by decide))
          (Or.inl (by decide))
      · exact upgrade_complexity_mem (time_nodes_from_mem b _ depth (by decide))
          (Or.inl (time_nodes_from_mem _ _ depth (by decide)))
  | .call f a, depth => by
      simp only [time_node_contrib]
      exact (analyze_call_complexity_mem (.call f a)).imp_right (fun h => by rw [h]; decide)
  | .module b, depth => by
      simp only [time_node_contrib]
      exact Or.inl (time_nodes_from_mem b _ depth (by decide))
  | .functionDef _ b, depth => by
      simp only [time_node_contrib]
      exact Or.inl (time_nodes_from_mem b _ depth (by decide))
  | .assign t v, depth => by
      simp only [time_node_contrib]
      exact Or.inl (upgrade_complexity_mem (time_nodes_from_mem t _ depth (by decide))
        (time_node_contrib_mem v depth))
  | .augAssign t _ v, depth => by
      simp only [time_node_contrib]
      exact Or.inl (upgrade_complexity_mem (upgrade_complexity_mem (by decide)
        (time_node_contrib_mem t depth)) (time_node_contrib_mem v depth))
  | .exprStmt v, depth => by
      simp only [time_node_contrib]
      exact Or.inl (upgrade_complexity_mem (by decide) (time_node_contrib_mem v depth))
  | .ret (.someN v), depth => by
      simp only [time_node_contrib]
      exact Or.inl (upgrade_complexity_mem (by decide) (time_node_contrib_mem v depth))
  | .ret .noneN, _ => by
      simp only [time_node_contrib]
      exact Or.inl (by decide)
  | .pass, _ => by
      simp only [time_node_contrib]
      exact Or.inl (by decide)
  | .name _ _, _ => by
      simp only [time_node_contrib]
      exact Or.inl (by decide)
  | .attribute v _, depth => by
      simp only [time_node_contrib]
      exact Or.inl (upgrade_complexity_mem (by decide) (time_node_contrib_mem v depth))
  | .binOp l _ r, depth => by
      simp only [time_node_contrib]
      exact Or.inl (upgrade_complexity_mem (upgrade_complexity_mem (by decide)
        (time_node_contrib_mem l depth)) (time_node_contrib_mem r depth))
  | .compare l _ cs, depth => by
      simp only [time_node_contrib]
      exact Or.inl (time_nodes_from_mem cs _ depth (upgrade_complexity_mem (by decide)
        (time_node_contrib_mem l depth)))
  | .constant _, _ => by
      simp only [time_node_contrib]
      exact Or.inl (by decide)
  | .subscript v ix, depth => by
      simp only [time_node_contrib]
      exact Or.inl (upgrade_complexity_mem (upgrade_complexity_mem (by decide)
        (time_node_contrib_mem v depth)) (time_node_contrib_mem ix depth))
  | .sliceExpr lo hi st, depth => by
      cases lo <;> cases hi <;> cases st <;> simp only [time_node_contrib] <;> left <;>
        (repeat first
          | decide
          | refine upgrade_complexity_mem ?_ (time_node_contrib_mem _ _))
  | .listLit e, depth => by
      simp only [time_node_contrib]
      exact Or.inl (time_nodes_from_mem e _ depth (by decide))
  | .dictLit k v, depth => by
      simp only [time_node_contrib]
      exact Or.inl (time_nodes_from_mem v _ depth (time_nodes_from_mem k _ depth (by decide)))
  | .setLit e, depth => by
      simp only [time_node_contrib]
      exact Or.inl (time_nodes_from_mem e _ depth (by decide))
  | .listComp e g, depth => by
      simp only [time_node_contrib]
      exact Or.inl (time_nodes_from_mem g _ depth (upgrade_complexity_mem (by decide)
        (time_node_contrib_mem e depth)))
  | .setComp e g, depth => by
      simp only [time_node_contrib]
      exact Or.inl (time_nodes_from_mem g _ depth (upgrade_complexity_mem (by decide)
        (time_node_contrib_mem e depth)))
  | .dictComp k v g, depth => by
      simp only [time_node_contrib]
      exact Or.inl (time_nodes_from_mem g _ depth (upgrade_complexity_mem
        (upgrade_complexity_mem (by decide) (time_node_contrib_mem k depth))
        (time_node_contrib_mem v depth)))
  | .comprehension t i ifs, depth => by
      simp only [time_node_contrib]
      exact Or.inl (time_nodes_from_mem ifs _ depth (upgrade_complexity_mem
        (upgrade_complexity_mem (by decide) (time_node_contrib_mem t depth))
        (time_node_contrib_mem i depth)))

/-- The statement fold of the time pass keeps a produced-class accumulator in
the produced classes. -/
theorem time_nodes_from_mem : (l : PyNodeList) → (acc : String) → (depth : Nat) →
    acc ∈ produced_classes → time_nodes_from acc l depth ∈ produced_classes
  | .nil, acc, _, h => by simpa only [time_nodes_from] using h
  | .cons n rest, acc, depth, h => by
      simp only [time_nodes_from]
      exact time_nodes_from_mem rest _ depth
        (upgrade_complexity_mem h (time_node_contrib_mem n depth))
end

/-- The assignment-target fold of the space pass preserves membership. -/
theorem space_assign_fold_mem : (t : PyNodeList) → (v : PyNode) → (d : Nat) →
    (acc : String) → acc ∈ produced_classes →
    space_assign_fold v d acc t ∈ produced_classes
  | .nil, _, _, _, h => by simpa only [space_assign_fold] using h
  | .cons hd rest, v, d, acc, h => by
      cases hd <;> simp only [space_assign_fold] <;>
        first
          | exact space_assign_fold_mem rest v d _ (upgrade_complexity_mem h
              (Or.inl (analyze_value_space_complexity_mem v d)))
          | exact space_assign_fold_mem rest v d _ h

mutual
/-- Every statement update of the space pass keeps a produced-class
accumulator in the produced classes. -/
theorem space_step_mem : (n : PyNode) → (root : PyNode) → (acc : String) → (d : Nat) →
    acc ∈ produced_classes → space_step root acc n d ∈ produced_classes
  | .assign t v, _, _, d, h => by
      simp only [space_step]
      exact space_assign_fold_mem t v d _ h
  | .forLoop t i b o, root, acc, d, h => by
      have hbody : space_nodes_from root (space_nodes_from root (space_step root
          (space_step root "O(1)" t (d + 1)) i (d + 1)) b (d + 1)) o (d + 1)
          ∈ produced_classes :=
        space_nodes_from_mem o root _ _ (space_nodes_from_mem b root _ _
          (space_step_mem i root _ _ (space_step_mem t root _ _ (by decide))))
      simp only [space_step]
      split_ifs <;>
        first
          | exact upgrade_complexity_mem (upgrade_complexity_mem h
              (Or.inl (space_at_depth_mem _))) (Or.inl hbody)
          | exact upgrade_complexity_mem h (Or.inl (space_at_depth_mem _))
          | exact upgrade_complexity_mem h (Or.inl hbody)
          | exact h
  | .whileLoop ts b o, root, acc, d, h => by
      have hbody : space_nodes_from root (space_nodes_from root
          (space_step root "O(1)" ts (d + 1)) b (d + 1)) o (d + 1) ∈ produced_classes :=
        space_nodes_from_mem o root _ _ (space_nodes_from_mem b root _ _
          (space_step_mem ts root _ _ (by decide)))
      simp only [space_step]
      split_ifs <;>
        first
          | exact upgrade_complexity_mem (upgrade_complexity_mem h
              (Or.inl (space_at_depth_mem _))) (Or.inl hbody)
          | exact upgrade_complexity_mem h (Or.inl (space_at_depth_mem _))
          | exact upgrade_complexity_mem h (Or.inl hbody)
          | exact h
  | .functionDef nm b, _, _, _, h => by
      simp only [space_step]
      split_ifs
      · exact upgrade_complexity_mem h (Or.inl (analyze_recursive_space_mem _))
      · exact h
  | .call f a, _, _, _, h => by
      simp only [space_step]
      exact upgrade_complexity_mem h (Or.inl (analyze_call_space_complexity_mem _))
  | .module b, root, _, d, h => by
      simp only [space_step]
      exact upgrade_complexity_mem h (Or.inl (space_nodes_from_mem b root _ d (by decide)))
  | .augAssign t _ v, root, _, d, h => by
      simp only [space_step]
      exact upgrade_complexity_mem h (Or.inl (space_step_mem v root _ d
        (space_step_mem t root _ d (by decide))))
  | .ifStmt ts b o, root, _, d, h => by
      simp only [space_step]
      exact upgrade_complexity_mem h (Or.inl (space_nodes_from_mem o root _ d
        (space_nodes_from_mem b root _ d (space_step_mem ts root _ d (by decide)))))
  | .exprStmt v, root, _, d, h => by
      simp only [space_step]
      exact upgrade_complexity_mem h (Or.inl (space_step_mem v root _ d (by decide)))
  | .ret (.someN v), root, _, d, h => by
      simp only [space_step]
      exact upgrade_complexity_mem h (Or.inl (space_step_mem v root _ d (by decide)))
  | .ret .noneN, _, _, _, h => by
      simp only [space_step]
      exact h
  | .pass, _, _, _, h => by
      simp only [space_step]
      exact h
  | .name _ _, _, _, _, h => by
      simp only [space_step]
      exact h
  | .attribute v _, root, _, d, h => by
      simp only [space_step]
      exact upgrade_complexity_mem h (Or.inl (space_step_mem v root _ d (by decide)))
  | .binOp l _ r, root, _, d, h => by
      simp only [space_step]
      exact upgrade_complexity_mem h (Or.inl (space_step_mem r root _ d
        (space_step_mem l root _ d (by decide))))
  | .compare l _ cs, root, _, d, h => by
      simp only [space_step]
      exact upgrade_complexity_mem h (Or.inl (space_nodes_from_mem cs root _ d
        (space_step_mem l root _ d (by decide))))
  | .constant _, _, _, _, h => by
      simp only [space_step]
      exact h
  | .subscript v ix, root, _, d, h => by
      simp only [space_step]
      exact upgrade_complexity_mem h (Or.inl (space_step_mem ix root _ d
        (space_step_mem v root _ d (by decide))))
  | .sliceExpr lo hi st, root, _, d, h => by
      cases lo <;> cases hi <;> cases st <;> simp only [space_step] <;>
        (apply upgrade_complexity_mem h; left;
         repeat first
           | decide
           | refine space_step_mem _ _ _ _ ?_)
  | .listLit e, root, _, d, h => by
      simp only [space_step]
      exact upgrade_complexity_mem h (Or.inl (space_nodes_from_mem e root _ d (by decide)))
  | .dictLit k v, root, _, d, h => by
      simp only [space_step]
      exact upgrade_complexity_mem h (Or.inl (space_nodes_from_mem v root _ d
        (space_nodes_from_mem k root _ d (by decide))))
  | .setLit e, root, _, d, h => by
      simp only [space_step]
      exact upgrade_complexity_mem h (Or.inl (space_nodes_from_mem e root _ d (by decide)))
  | .listComp e g, root, _, d, h => by
      simp only [space_step]
      exact upgrade_complexity_mem h (Or.inl (space_nodes_from_mem g root _ d
        (space_step_mem e root _ d (by decide))))
  | .setComp e g, root, _, d, h => by
      simp only [space_step]
      exact upgrade_complexity_mem h (Or.inl (space_nodes_from_mem g root _ d
        (space_step_mem e root _ d (by decide))))
  | .dictComp k v g, root, _, d, h => by
      simp only [space_step]
      exact upgrade_complexity_mem h (Or.inl (space_nodes_from_mem g root _ d
        (space_step_mem v root _ d (space_step_mem k root _ d (by decide)))))
  | .comprehension t i ifs, root, _, d, h => by
      simp only [space_step]
      exact upgrade_complexity_mem h (Or.inl (space_nodes_from_mem ifs root _ d
        (space_step_mem i root _ d (space_step_mem t root _ d (by decide)))))

/-- The statement fold of the space pass keeps a produced-class accumulator
in the produced classes. -/
theorem space_nodes_from_mem : (l : PyNodeList) → (root : PyNode) → (acc : String) →
    (d : Nat) → acc ∈ produced_classes → space_nodes_from root acc l d ∈ produced_classes
  | .nil, _, acc, _, h => by simpa only [space_nodes_from] using h
  | .cons n rest, root, acc, d, h => by
      simp only [space_nodes_from]
      exact space_nodes_from_mem rest root _ d (space_step_mem n root _ d h)
end

theorem analyze_function_complexity_mem (n : PyNode) :
    analyze_function_complexity n ∈ produced_classes :=
  time_nodes_from_mem _ _ _ (by decide)

theorem analyze_function_space_complexity_mem (n : PyNode) :
    analyze_function_space_complexity n ∈ produced_classes := by
  unfold analyze_function_space_complexity
  split
  · split_ifs
    · exact analyze_recursive_space_mem _
    · exact space_nodes_from_mem _ _ _ _ (by decide)
  · exact space_nodes_from_mem _ _ _ _ (by decide)

theorem function_time_entry_mem (f : PyNode) :
    function_time_entry f ∈ produced_classes := by
  unfold function_time_entry
  split_ifs
  · exact analyze_recursive_complexity_mem f
  · exact analyze_function_complexity_mem f

theorem function_space_entry_mem (f : PyNode) :
    function_space_entry f ∈ produced_classes := by
  unfold function_space_entry
  split_ifs
  · exact analyze_recursive_space_mem f
  · exact analyze_function_space_complexity_mem f

theorem py_max_by_mem (key : String → Nat) :
    ∀ (l : List String) (acc : String), py_max_by key acc l = acc ∨ py_max_by key acc l ∈ l
  | [], acc => Or.inl rfl
  | v :: rest, acc => by
      simp only [py_max_by]
      split
      · rcases py_max_by_mem key rest v with h | h
        · exact Or.inr (by rw [h]; exact List.mem_cons_self v rest)
        · exact Or.inr (List.mem_cons_of_mem v h)
      · rcases py_max_by_mem key rest acc with h | h
        · exact Or.inl h
        · exact Or.inr (List.mem_cons_of_mem v h)

theorem py_max_by_ge_acc (key : String → Nat) :
    ∀ (l : List String) (acc : String), key acc ≤ key (py_max_by key acc l)
  | [], acc => le_refl _
  | v :: rest, acc => by
      simp only [py_max_by]
      split
      · rename_i h
        exact le_trans (Nat.le_of_lt h) (py_max_by_ge_acc key rest v)
      · exact py_max_by_ge_acc key rest acc

theorem py_max_by_ge_mem (key : String → Nat) :
    ∀ (l : List String) (acc : String), ∀ x ∈ l, key x ≤ key (py_max_by key acc l)
  | v :: rest, acc, x, hx => by
      rcases List.mem_cons.mp hx with rfl | hx
      · simp only [py_max_by]
        split
        · exact py_max_by_ge_acc key rest x
        · rename_i h
          exact le_trans (Nat.le_of_not_lt h) (py_max_by_ge_acc key rest acc)
      · simp only [py_max_by]
        split
        · exact py_max_by_ge_mem key rest v x hx
        · exact py_max_by_ge_mem key rest acc x hx

theorem dict_insert_mem {m : List (String × String)} {k v : String} :
    ∀ q ∈ dict_insert m k v, q ∈ m ∨ q = (k, v) := by
  intro q hq
  unfold dict_insert at hq
  split at hq
  · rcases List.mem_map.mp hq with ⟨p, hp, hpq⟩
    by_cases hk : p.1 == k
    · right
      rw [if_pos hk] at hpq
      exact hpq.symm
    · left
      rw [if_neg hk] at hpq
      exact hpq ▸ hp
  · rcases List.mem_append.mp hq with h | h
    · exact Or.inl h
    · exact Or.inr (List.mem_singleton.mp h)

theorem dict_insert_ne_nil (m : List (String × String)) (k v : String) :
    dict_insert m k v ≠ [] := by
  unfold dict_insert
  split
  · rename_i h
    rcases List.any_eq_true.mp h with ⟨p, hp, _⟩
    intro hmap
    rw [List.map_eq_nil_iff] at hmap
    subst hmap
    simp at hp
  · intro happ
    simp at happ

theorem dict_insert_has_key (m : List (String × String)) (k v : String) :
    ∃ p ∈ dict_insert m k v, p.1 = k := by
  unfold dict_insert
  split
  · rename_i h
    rcases List.any_eq_true.mp h with ⟨p, hp, hk⟩
    exact ⟨(k, v), List.mem_map.mpr ⟨p, hp, by simp [hk]⟩, rfl⟩
  · exact ⟨(k, v), by simp, rfl⟩

theorem foldl_dict_insert_mem (entry : PyNode → String) :
    ∀ (fs : List PyNode) (m : List (String × String)) (q : String × String),
      q ∈ fs.foldl (fun acc f => dict_insert acc (def_name f) (entry f)) m →
      q ∈ m ∨ ∃ f ∈ fs, q = (def_name f, entry f)
  | [], m, q, hq => Or.inl hq
  | f :: rest, m, q, hq => by
      simp only [List.foldl_cons] at hq
      rcases foldl_dict_insert_mem entry rest _ q hq with h | ⟨g, hg, hgq⟩
      · rcases dict_insert_mem q h with h' | h'
        · exact Or.inl h'
        · exact Or.inr ⟨f, List.mem_cons_self f rest, h'⟩
      · exact Or.inr ⟨g, List.mem_cons_of_mem f hg, hgq⟩

theorem build_function_map_mem (entry : PyNode → String) (tree : PyNode) :
    ∀ q ∈ build_function_map entry tree,
      ∃ f ∈ function_defs tree, q = (def_name f, entry f) := by
  intro q hq
  rcases foldl_dict_insert_mem entry (function_defs tree) [] q hq with h | h
  · simp at h
  · exact h

/-- The full characterization of `aggregate_report` used by the aggregation
claims: there is always a `functions` list; the overall class is read off it
(`O(1)` exactly when it is empty, its first weight-maximal value otherwise);
every entry comes from the input dict or is the synthetic module entry; and
when the input dict has no `<module-level>` key that synthetic entry is
present exactly when the top-level class is non-trivial. -/
theorem aggregate_report_spec (complexities : List (String × String)) (top : String) :
    ∃ fs, (aggregate_report complexities top).functions = some fs ∧
      ((fs = [] → (aggregate_report complexities top).overall = "O(1)") ∧
       (fs ≠ [] → (aggregate_report complexities top).overall ∈ fs.map (·.2) ∧
         ∀ val ∈ fs.map (·.2),
           complexity_weight val ≤ complexity_weight (aggregate_report complexities top).overall)) ∧
      (∀ q ∈ fs, q ∈ complexities ∨ q = ("<module-level>", top)) ∧
      (¬ "<module-level>" ∈ complexities.map (·.1) →
        ((∃ p ∈ fs, p.1 = "<module-level>") ↔ top ≠ "O(1)")) := by
  unfold aggregate_report
  split
  · rename_i hcond
    refine ⟨[], rfl, ⟨fun _ => rfl, fun h => absurd rfl h⟩, by simp, ?_⟩
    intro _
    constructor
    · rintro ⟨p, hp, _⟩
      simp at hp
    · intro hne
      exact absurd hcond.2 hne
  · rename_i hcond
    dsimp only
    split
    · rename_i hmap
      exfalso
      by_cases htop : top = "O(1)"
      · rw [if_neg (not_ne_iff.mpr htop)] at hmap
        rw [List.map_eq_nil_iff] at hmap
        rw [not_and_or] at hcond
        rcases hcond with hc | hc
        · exact hc (List.isEmpty_iff.mpr hmap)
        · exact hc htop
      · rw [if_pos htop] at hmap
        rw [List.map_eq_nil_iff] at hmap
        exact dict_insert_ne_nil _ _ _ hmap
    · rename_i v rest hmap
      by_cases htop : top = "O(1)"
      · rw [if_neg (not_ne_iff.mpr htop)] at hmap ⊢
        refine ⟨_, rfl, ⟨?_, ?_⟩, ?_, ?_⟩
        · intro h
          rw [h] at hmap
          simp at hmap
        · intro _
          constructor
          · rw [hmap]
            rcases py_max_by_mem complexity_weight rest v with h | h
            · rw [h]; exact List.mem_cons_self v rest
            · exact List.mem_cons_of_mem v h
          · intro val hval
            rw [hmap] at hval
            rcases List.mem_cons.mp hval with rfl | hval
            · exact py_max_by_ge_acc complexity_weight rest val
            · exact py_max_by_ge_mem complexity_weight rest v val hval
        · intro q hq
          exact Or.inl hq
        · intro hkeys
          constructor
          · rintro ⟨p, hp, hpk⟩
            exact absurd (List.mem_map.mpr ⟨p, hp, hpk⟩) hkeys
          · intro hne
            exact absurd htop hne
      · rw [if_pos htop] at hmap ⊢
        refine ⟨_, rfl, ⟨?_, ?_⟩, ?_, ?_⟩
        · intro h
          rw [h] at hmap
          simp at hmap
        · intro _
          constructor
          · rw [hmap]
            rcases py_max_by_mem complexity_weight rest v with h | h
            · rw [h]; exact List.mem_cons_self v rest
            · exact List.mem_cons_of_mem v h
          · intro val hval
            rw [hmap] at hval
            rcases List.mem_cons.mp hval with rfl | hval
            · exact py_max_by_ge_acc complexity_weight rest val
            · exact py_max_by_ge_mem complexity_weight rest v val hval
        · intro q hq
          exact dict_insert_mem q hq
        · intro _
          constructor
          · intro _
            exact htop
          · intro _
            exact dict_insert_has_key complexities "<module-level>" top

theorem rec_facts_step_calls (nm : String) (st : RecursionFacts) (n : PyNode) :
    (rec_facts_step nm st n).recursive_calls =
      st.recursive_calls + (if is_self_call nm n then 1 else 0) := by
  cases n
  case call f a =>
    cases f <;> simp only [rec_facts_step, is_self_call] <;> (try split_ifs) <;> simp_all
  case assign t v =>
    simp only [rec_facts_step, is_self_call]
    split_ifs <;> simp_all
  case subscript v ix =>
    simp only [rec_facts_step, is_self_call]
    split_ifs <;> simp_all
  all_goals simp [rec_facts_step, is_self_call]

theorem foldl_rec_facts_calls (nm : String) :
    ∀ (l : List PyNode) (st : RecursionFacts),
      (l.foldl (rec_facts_step nm) st).recursive_calls =
        st.recursive_calls + l.countP (is_self_call nm)
  | [], st => by simp
  | n :: rest, st => by
      simp only [List.foldl_cons, List.countP_cons]
      rw [foldl_rec_facts_calls nm rest, rec_facts_step_calls]
      split_ifs <;> omega

theorem recursion_facts_calls (nm : String) (f : PyNode) :
    (recursion_facts nm f).recursive_calls = (walk f).countP (is_self_call nm) := by
  unfold recursion_facts
  rw [foldl_rec_facts_calls]
  simp

theorem is_recursive_iff_calls (nm : String) (b : PyNodeList) :
    is_recursive_function (.functionDef nm b) = true ↔
      0 < (recursion_facts nm (.functionDef nm b)).recursive_calls := by
  rw [recursion_facts_calls]
  unfold is_recursive_function
  rw [List.any_eq_true, List.countP_pos_iff]

theorem space_rec_facts_step_calls (nm : String) (st : SpaceRecursionFacts) (n : PyNode) :
    (space_rec_facts_step nm st n).recursive_calls =
      st.recursive_calls + (if is_self_call nm n then 1 else 0) := by
  cases n
  case call f a =>
    cases f <;> simp only [space_rec_facts_step, is_self_call] <;> (try split_ifs) <;> simp_all
  case assign t v =>
    simp only [space_rec_facts_step, is_self_call]
    split_ifs <;> simp_all
  case subscript v ix =>
    simp only [space_rec_facts_step, is_self_call]
    split_ifs <;> simp_all
  all_goals simp [space_rec_facts_step, is_self_call]

theorem foldl_space_rec_facts_calls (nm : String) :
    ∀ (l : List PyNode) (st : SpaceRecursionFacts),
      (l.foldl (space_rec_facts_step nm) st).recursive_calls =
        st.recursive_calls + l.countP (is_self_call nm)
  | [], st => by simp
  | n :: rest, st => by
      simp only [List.foldl_cons, List.countP_cons]
      rw [foldl_space_rec_facts_calls nm rest, space_rec_facts_step_calls]
      split_ifs <;> omega

theorem space_recursion_facts_calls (nm : String) (f : PyNode) :
    (space_recursion_facts nm f).recursive_calls = (walk f).countP (is_self_call nm) := by
  unfold space_recursion_facts
  rw [foldl_space_rec_facts_calls]
  simp

theorem is_recursive_iff_space_calls (nm : String) (b : PyNodeList) :
    is_recursive_function (.functionDef nm b) = true ↔
      0 < (space_recursion_facts nm (.functionDef nm b)).recursive_calls := by
  rw [space_recursion_facts_calls]
  unfold is_recursive_function
  rw [List.any_eq_true, List.countP_pos_iff]

/-- The source's depth scan computes exactly the maximum of the claim-side
depth trace (given the invariant that the running maximum dominates the
running depth). -/
theorem scan_loop_depth_eq :
    ∀ (lines : List (List Char)) (cur mx : Nat), cur ≤ mx →
      scan_loop_depth lines cur mx = max mx (nat_list_max (claimed_depth_trace lines cur))
  | [], cur, mx, _ => by
      simp [scan_loop_depth, claimed_depth_trace, nat_list_max]
  | line :: rest, cur, mx, hle => by
      simp only [scan_loop_depth, claimed_depth_trace, nat_list_max]
      by_cases hkw : matches_loop_keyword (py_strip line) = true
      · rw [if_pos hkw, if_pos hkw,
          scan_loop_depth_eq rest (cur + 1) (max mx (cur + 1)) (Nat.le_max_right _ _)]
        omega
      · rw [if_neg hkw, if_neg hkw]
        by_cases hbr : ends_with_brace (py_strip line) = true
        · by_cases hcur : 0 < cur
          · rw [if_pos (by simp [hbr, hcur]), if_pos hbr,
              scan_loop_depth_eq rest (cur - 1) mx (by omega)]
            omega
          · rw [if_neg (by simp [hcur]), if_pos hbr]
            have hc0 : cur = 0 := by omega
            subst hc0
            simp only [Nat.zero_sub]
            rw [scan_loop_depth_eq rest 0 mx (by omega)]
            omega
        · rw [if_neg (by simp [hbr]), if_neg hbr,
            scan_loop_depth_eq rest cur mx hle]
          omega

theorem space_loop_scan_mem :
    ∀ (lines : List (List Char)) (in_loop : Bool) (d : Nat) (space : String),
      space ∈ produced_classes → space_loop_scan lines in_loop d space ∈ produced_classes
  | [], _, _, _, h => by simpa only [space_loop_scan] using h
  | line :: rest, in_loop, d, space, h => by
      simp only [space_loop_scan]
      split_ifs <;>
        first
          | exact space_loop_scan_mem rest _ _ _ h
          | exact space_loop_scan_mem rest _ _ _
              (upgrade_complexity_mem h (Or.inl (by decide)))

theorem complexity_index_eq_zero_of_not_mem (c : String) (h : ¬ c ∈ complexity_order) :
    complexity_index c = 0 := by
  unfold complexity_index
  split_ifs <;> simp_all [complexity_order]

/-! ## Claim theorems -/

/-- C1: for every Python function whose body contains a direct self-call,
the tree-based time pass classifies it by the fixed recursion table over
(self-call count, divides_problem, has_slicing): exactly 1 self-call yields
`O(n)`; exactly 2 self-calls with both a divide pattern and slicing yield
`O(n log n)`; exactly 2 self-calls with a divide pattern but no slicing
yield `O(log n)`; exactly 2 self-calls with neither yield `O(n²)`; 3 or more
self-calls yield `O(n³+)`. -/
theorem C1_recursive_time_table (nm : String) (body : PyNodeList)
    (h : 0 < (recursion_facts nm (.functionDef nm body)).recursive_calls) :
    function_time_entry (.functionDef nm body) =
      analyze_recursive_complexity (.functionDef nm body) ∧
    ((recursion_facts nm (.functionDef nm body)).recursive_calls = 1 →
      analyze_recursive_complexity (.functionDef nm body) = "O(n)") ∧
    ((recursion_facts nm (.functionDef nm body)).recursive_calls = 2 →
      (recursion_facts nm (.functionDef nm body)).divides_problem = true →
      (recursion_facts nm (.functionDef nm body)).has_slicing = true →
      analyze_recursive_complexity (.functionDef nm body) = "O(n log n)") ∧
    ((recursion_facts nm (.functionDef nm body)).recursive_calls = 2 →
      (recursion_facts nm (.functionDef nm body)).divides_problem = true →
      (recursion_facts nm (.functionDef nm body)).has_slicing = false →
      analyze_recursive_complexity (.functionDef nm body) = "O(log n)") ∧
    ((recursion_facts nm (.functionDef nm body)).recursive_calls = 2 →
      (recursion_facts nm (.functionDef nm body)).divides_problem = false →
      (recursion_facts nm (.functionDef nm body)).has_slicing = false →
      analyze_recursive_complexity (.functionDef nm body) = "O(n²)") ∧
    (3 ≤ (recursion_facts nm (.functionDef nm body)).recursive_calls →
      analyze_recursive_complexity (.functionDef nm body) = "O(n³+)") := by
  refine ⟨?_, ?_, ?_, ?_, ?_, ?_⟩
  · unfold function_time_entry
    rw [if_pos ((is_recursive_iff_calls nm body).mpr h)]
  · intro h1
    simp [analyze_recursive_complexity, h1]
  · intro h1 h2 h3
    simp [analyze_recursive_complexity, h1, h2, h3]
  · intro h1 h2 h3
    simp [analyze_recursive_complexity, h1, h2, h3]
  · intro h1 h2 h3
    simp [analyze_recursive_complexity, h1, h2, h3]
  · intro h6
    have h1 : ¬ (recursion_facts nm (.functionDef nm body)).recursive_calls = 1 := by omega
    have h2 : ¬ (recursion_facts nm (.functionDef nm body)).recursive_calls = 2 := by omega
    simp [analyze_recursive_complexity, h1, h2]

/-- Witness for C1 at `fib` (two self-calls, no divide pattern): the pass
routes it through the recursion table, which answers `O(n²)`. -/
theorem C1_witness :
    function_time_entry ex_fib = analyze_recursive_complexity ex_fib ∧
    analyze_recursive_complexity ex_fib = "O(n²)" := by
  have h := C1_recursive_time_table "fib" ex_fib_body (by decide)
  exact ⟨h.1, h.2.2.2.2.1 (by decide) (by decide) (by decide)⟩

/-- C2: the tree-based time pass composes nesting as claimed — a single
linear loop with no calls scores `O(n)`, two nested loops `O(n²)`, a halving
loop alone `O(log n)`, a halving loop with a nested linear loop `O(n log n)`
— and the body of a loop detected as logarithmic is evaluated at depth 0, so
its score does not depend on the surrounding depth. -/
theorem C2_nesting_composition :
    (∀ (t i : PyNode) (b o : PyNodeList) (d d' : Nat),
      is_logarithmic_loop (.forLoop t i b o) = true →
      time_node_contrib (.forLoop t i b o) d = time_node_contrib (.forLoop t i b o) d') ∧
    (∀ (ts : PyNode) (b o : PyNodeList) (d d' : Nat),
      is_logarithmic_loop (.whileLoop ts b o) = true →
      time_node_contrib (.whileLoop ts b o) d = time_node_contrib (.whileLoop ts b o) d') ∧
    analyze_function_complexity ex_single_loop_fn = "O(n)" ∧
    analyze_function_complexity ex_nested_loops_fn = "O(n²)" ∧
    analyze_function_complexity ex_halving_fn = "O(log n)" ∧
    analyze_function_complexity ex_halving_linear_fn = "O(n log n)" := by
  refine ⟨?_, ?_, by decide, by decide, by decide, by decide⟩
  · intro t i b o d d' hlog
    simp only [time_node_contrib]
    rw [if_pos hlog, if_pos hlog]
  · intro ts b o d d' hlog
    simp only [time_node_contrib]
    rw [if_pos hlog, if_pos hlog]

/-- Witness for C2's depth-independence at the halving loop: its
contribution at depth 5 equals its contribution at depth 0, namely
`O(log n)`. -/
theorem C2_witness :
    is_logarithmic_loop ex_halving_loop = true ∧
    time_node_contrib ex_halving_loop 5 = time_node_contrib ex_halving_loop 0 ∧
    time_node_contrib ex_halving_loop 0 = "O(log n)" :=
  ⟨by decide, C2_nesting_composition.2.1 _ _ _ 5 0 (by decide), by decide⟩

/-- C3: `_upgrade_complexity` is total (always returns one of its two
arguments, so it never raises), never lowers either argument's position in
the order, is commutative on recognized classes and returns whichever of the
two is not lower in the fixed order, and treats an unrecognized token as
`O(1)`: such a token is right-neutral and, on the left, leaves the result's
position that of the other argument. -/
theorem C3_upgrade_lattice :
    (∀ a b : String, upgrade_complexity a b = a ∨ upgrade_complexity a b = b) ∧
    (∀ a b : String, complexity_index a ≤ complexity_index (upgrade_complexity a b) ∧
       complexity_index b ≤ complexity_index (upgrade_complexity a b)) ∧
    (∀ a b : String, a ∈ complexity_order → b ∈ complexity_order →
       upgrade_complexity a b = upgrade_complexity b a ∧
       (complexity_index b ≤ complexity_index a → upgrade_complexity a b = a) ∧
       (complexity_index a ≤ complexity_index b → upgrade_complexity a b = b)) ∧
    (∀ x junk : String, ¬ junk ∈ complexity_order → upgrade_complexity x junk = x) ∧
    (∀ junk x : String, ¬ junk ∈ complexity_order → complexity_index junk = 0 ∧
       complexity_index (upgrade_complexity junk x) = complexity_index x) := by
  refine ⟨?_, ?_, ?_, ?_, ?_⟩
  · intro a b
    unfold upgrade_complexity
    split
    · exact Or.inr rfl
    · exact Or.inl rfl
  · intro a b
    unfold upgrade_complexity
    split <;> omega
  · intro a b ha hb
    fin_cases ha <;> fin_cases hb <;> exact ⟨by decide, fun h => by revert h; decide,
      fun h => by revert h; decide⟩
  · intro x junk hj
    have hz := complexity_index_eq_zero_of_not_mem junk hj
    unfold upgrade_complexity
    rw [if_neg (by omega)]
  · intro junk x hj
    have hz := complexity_index_eq_zero_of_not_mem junk hj
    refine ⟨hz, ?_⟩
    unfold upgrade_complexity
    split
    · rfl
    · omega

/-- Witness for C3 at concrete classes and the unrecognized token
`"garbage"`. -/
theorem C3_witness :
    upgrade_complexity "O(n)" "O(log n)" = upgrade_complexity "O(log n)" "O(n)" ∧
    upgrade_complexity "O(n)" "O(log n)" = "O(n)" ∧
    upgrade_complexity "O(n)" "garbage" = "O(n)" ∧
    complexity_index (upgrade_complexity "garbage" "O(n)") = complexity_index "O(n)" :=
  ⟨(C3_upgrade_lattice.2.2.1 "O(n)" "O(log n)" (by decide) (by decide)).1,
   (C3_upgrade_lattice.2.2.1 "O(n)" "O(log n)" (by decide) (by decide)).2.1 (by decide),
   C3_upgrade_lattice.2.2.2.1 "O(n)" "garbage" (by decide),
   (C3_upgrade_lattice.2.2.2.2 "garbage" "O(n)" (by decide)).2⟩

/-- C6: for every Python function containing a direct self-call, the space
pass classifies it by the fixed table: with a fresh container, `O(n)` when
both a divide pattern and slicing are present and `O(n²)` otherwise; with no
container, `O(log n)` with a divide pattern, `O(n)` with exactly one
self-call and no divide pattern, and `O(n²)` for multiple self-calls without
division. -/
theorem C6_recursive_space_table (nm : String) (body : PyNodeList)
    (h : 0 < (space_recursion_facts nm (.functionDef nm body)).recursive_calls) :
    function_space_entry (.functionDef nm body) =
      analyze_recursive_space (.functionDef nm body) ∧
    ((space_recursion_facts nm (.functionDef nm body)).creates_data_structures = true →
      (space_recursion_facts nm (.functionDef nm body)).divides_problem = true →
      (space_recursion_facts nm (.functionDef nm body)).has_slicing = true →
      analyze_recursive_space (.functionDef nm body) = "O(n)") ∧
    ((space_recursion_facts nm (.functionDef nm body)).creates_data_structures = true →
      ((space_recursion_facts nm (.functionDef nm body)).divides_problem &&
        (space_recursion_facts nm (.functionDef nm body)).has_slicing) = false →
      analyze_recursive_space (.functionDef nm body) = "O(n²)") ∧
    ((space_recursion_facts nm (.functionDef nm body)).creates_data_structures = false →
      (space_recursion_facts nm (.functionDef nm body)).divides_problem = true →
      analyze_recursive_space (.functionDef nm body) = "O(log n)") ∧
    ((space_recursion_facts nm (.functionDef nm body)).creates_data_structures = false →
      (space_recursion_facts nm (.functionDef nm body)).divides_problem = false →
      (space_recursion_facts nm (.functionDef nm body)).recursive_calls = 1 →
      analyze_recursive_space (.functionDef nm body) = "O(n)") ∧
    ((space_recursion_facts nm (.functionDef nm body)).creates_data_structures = false →
      (space_recursion_facts nm (.functionDef nm body)).divides_problem = false →
      2 ≤ (space_recursion_facts nm (.functionDef nm body)).recursive_calls →
      analyze_recursive_space (.functionDef nm body) = "O(n²)") := by
  refine ⟨?_, ?_, ?_, ?_, ?_, ?_⟩
  · unfold function_space_entry
    rw [if_pos ((is_recursive_iff_space_calls nm body).mpr h)]
  · intro h1 h2 h3
    simp [analyze_recursive_space, h1, h2, h3]
  · intro h1 h2
    simp [analyze_recursive_space, h1, h2]
  · intro h1 h2
    simp [analyze_recursive_space, h1, h2]
  · intro h1 h2 h3
    simp [analyze_recursive_space, h1, h2, h3]
  · intro h1 h2 h3
    have h4 : ¬ (space_recursion_facts nm (.functionDef nm body)).recursive_calls = 1 := by
      omega
    simp [analyze_recursive_space, h1, h2, h4]

/-- Witness for C6 at `fib` (no containers, no division, two self-calls):
stack-depth heuristic answers `O(n²)`. -/
theorem C6_witness :
    function_space_entry ex_fib = analyze_recursive_space ex_fib ∧
    analyze_recursive_space ex_fib = "O(n²)" := by
  have h := C6_recursive_space_table "fib" ex_fib_body (by decide)
  exact ⟨h.1, h.2.2.2.2.2 (by decide) (by decide) (by decide)⟩

/-- C7: in the tree-based space pass, an assignment outside any loop of a
non-empty literal list/dict/set is scored `O(1)`; an empty literal, a
comprehension, or a call returning a fresh collection (`list`, `dict`,
`set`, `tuple`, `sorted`) is scored `O(n)`; and the `Assign` branch of the
pass upgrades the running class by exactly this value-space score. -/
theorem C7_value_space_rules :
    (∀ l : PyNodeList, l ≠ .nil → analyze_value_space_complexity (.listLit l) 0 = "O(1)") ∧
    (∀ k v : PyNodeList, k ≠ .nil →
      analyze_value_space_complexity (.dictLit k v) 0 = "O(1)") ∧
    (∀ l : PyNodeList, l ≠ .nil → analyze_value_space_complexity (.setLit l) 0 = "O(1)") ∧
    analyze_value_space_complexity (.listLit .nil) 0 = "O(n)" ∧
    analyze_value_space_complexity (.dictLit .nil .nil) 0 = "O(n)" ∧
    analyze_value_space_complexity (.setLit .nil) 0 = "O(n)" ∧
    (∀ e g, analyze_value_space_complexity (.listComp e g) 0 = "O(n)") ∧
    (∀ e g, analyze_value_space_complexity (.setComp e g) 0 = "O(n)") ∧
    (∀ k v g, analyze_value_space_complexity (.dictComp k v g) 0 = "O(n)") ∧
    (∀ (fn : String) (ctx : NameCtx) (args : PyNodeList),
      fn = "list" ∨ fn = "dict" ∨ fn = "set" ∨ fn = "tuple" ∨ fn = "sorted" →
      analyze_value_space_complexity (.call (.name fn ctx) args) 0 = "O(n)") ∧
    (∀ (root : PyNode) (acc x : String) (ctx : NameCtx) (v : PyNode),
      space_step root acc (.assign (.cons (.name x ctx) .nil) v) 0 =
        upgrade_complexity acc (analyze_value_space_complexity v 0)) := by
  refine ⟨?_, ?_, ?_, by decide, by decide, by decide, ?_, ?_, ?_, ?_, ?_⟩
  · intro l hl
    cases l
    · exact absurd rfl hl
    · simp [analyze_value_space_complexity, PyNodeList.len]
  · intro k v hk
    cases k
    · exact absurd rfl hk
    · simp [analyze_value_space_complexity, PyNodeList.len]
  · intro l hl
    cases l
    · exact absurd rfl hl
    · simp [analyze_value_space_complexity, PyNodeList.len]
  · intro e g
    simp [analyze_value_space_complexity]
  · intro e g
    simp [analyze_value_space_complexity]
  · intro k v g
    simp [analyze_value_space_complexity]
  · intro fn ctx args hfn
    rcases hfn with rfl | rfl | rfl | rfl | rfl <;>
      simp [analyze_value_space_complexity, analyze_call_space_complexity]
  · intro root acc x ctx v
    simp [space_step, space_assign_fold]

/-- Witness for C7 at a non-empty list literal and a `sorted` call. -/
theorem C7_witness :
    analyze_value_space_complexity (.listLit (.cons (.constant (.intC 1)) .nil)) 0 = "O(1)" ∧
    analyze_value_space_complexity
      (.call (.name "sorted" .load) (.cons (.name "xs" .load) .nil)) 0 = "O(n)" :=
  ⟨C7_value_space_rules.1 _ (by decide),
   C7_value_space_rules.2.2.2.2.2.2.2.2.2.1 "sorted" .load _ (by decide)⟩

/-- The aggregation invariant of claim C4, for one pass's report and its
top-level class: an empty per-function map forces `O(1)`; a non-empty map
contains the overall class and no value of higher weight; and the synthetic
`<module-level>` entry is present exactly when the top-level class is
non-trivial. -/
def report_invariant (r : ComplexityReport) (top : String) : Prop :=
  ((r.functions.getD []) = [] → r.overall = "O(1)") ∧
  ((r.functions.getD []) ≠ [] →
     r.overall ∈ (r.functions.getD []).map (·.2) ∧
     ∀ v ∈ (r.functions.getD []).map (·.2),
       complexity_weight v ≤ complexity_weight r.overall) ∧
  ((∃ p ∈ (r.functions.getD []), p.1 = "<module-level>") ↔ top ≠ "O(1)")

theorem aggregate_build_invariant (entry : PyNode → String) (tree : PyNode) (top : String)
    (hname : ∀ f ∈ function_defs tree, def_name f ≠ "<module-level>") :
    report_invariant (aggregate_report (build_function_map entry tree) top) top := by
  obtain ⟨fs, hfs, ⟨hemp, hne⟩, _, hiff⟩ :=
    aggregate_report_spec (build_function_map entry tree) top
  have hkeys : ¬ "<module-level>" ∈ (build_function_map entry tree).map (·.1) := by
    intro hmem
    rcases List.mem_map.mp hmem with ⟨q, hq, hq1⟩
    rcases build_function_map_mem entry tree q hq with ⟨f, hf, rfl⟩
    exact hname f hf hq1
  unfold report_invariant
  rw [hfs]
  simp only [Option.getD_some]
  exact ⟨hemp, hne, hiff hkeys⟩

/-- C4: for every parsed module, the reports of both tree passes satisfy the
aggregation invariant: the overall class is the lattice maximum of the
per-function map (including the synthetic `<module-level>` entry, present
exactly when the top-level class is non-trivial), and an empty map yields
`O(1)`.  The hypothesis rules out a user function literally named
`<module-level>`, which the Python parser cannot produce. -/
theorem C4_overall_invariant (tree : PyNode)
    (hname : ∀ f ∈ function_defs tree, def_name f ≠ "<module-level>") :
    report_invariant (calculate_time_complexity tree) (analyze_function_complexity tree) ∧
    report_invariant (calculate_space_complexity tree)
      (analyze_function_space_complexity tree) :=
  ⟨aggregate_build_invariant function_time_entry tree _ hname,
   aggregate_build_invariant function_space_entry tree _ hname⟩

/-- Witness for C4 at a module holding `fib` and a top-level loop. -/
theorem C4_witness :
    report_invariant (calculate_time_complexity ex_module)
      (analyze_function_complexity ex_module) ∧
    report_invariant (calculate_space_complexity ex_module)
      (analyze_function_space_complexity ex_module) :=
  C4_overall_invariant ex_module (by decide)

/-- C5 counterexample: on a source with one loop line (depth 1) and a sort
token, the code answers `O(n)` while the claim's rule — upgrade to at least
`O(n log n)` whenever no higher class was found — demands `O(n log n)`. -/
theorem C5_counterexample :
    (estimate_complexity_from_text c5_input).overall = "O(n)" ∧
    claimed_text_time_overall c5_input = "O(n log n)" ∧
    ¬ (estimate_complexity_from_text c5_input).overall = claimed_text_time_overall c5_input :=
  by decide

/-- C5 amended: the text-based time pass scans depth exactly as claimed
(increment on loop-keyword lines, floored decrement on closing-brace lines,
class from the maximum depth reached, `estimated = true`), but the sort
token upgrades the class only when the depth-derived class is exactly
`O(1)`, not whenever it is below `O(n log n)`. -/
theorem C5_text_time_amended (code : List Char) :
    estimate_complexity_from_text code =
      { overall := amended_text_time_overall code
        functions := Option.none
        estimated := true } := by
  unfold estimate_complexity_from_text amended_text_time_overall claimed_depth_class
  rw [scan_loop_depth_eq (split_lines code) 0 0 (le_refl 0)]
  simp only [Nat.zero_max]
  simp only [ComplexityReport.mk.injEq, and_true]
  split_ifs <;> simp_all

/-- C9: the logarithmic-loop detector classifies every `while` loop whose
guard comparison uses `<`, `<=`, `>` or `>=` as logarithmic, regardless of
how (or whether) the loop variable shrinks, and likewise any node whose
subtree contains an assignment of the shape `x = y + 1` / `x = y - 1`; the
time pass therefore scores such a `while` loop with a trivial body
`O(log n)` rather than `O(n)`. -/
theorem C9_logarithmic_overreach :
    (∀ (l : PyNode) (ops : List CmpOpKind) (cs : PyNodeList) (b o : PyNodeList),
      (∃ op ∈ ops, op = CmpOpKind.lt ∨ op = CmpOpKind.ltE ∨
        op = CmpOpKind.gt ∨ op = CmpOpKind.gtE) →
      is_logarithmic_loop (.whileLoop (.compare l ops cs) b o) = true) ∧
    (∀ n : PyNode,
      (∃ (t : PyNodeList) (yl : PyNode) (opk : BinOpKind) (k : PyConst),
        (PyNode.assign t (.binOp yl opk (.constant k))) ∈ walk n ∧
        (opk = BinOpKind.add ∨ opk = BinOpKind.sub) ∧ py_eq_int k 1 = true) →
      is_logarithmic_loop n = true) ∧
    (∀ (ts : PyNode) (b o : PyNodeList) (d : Nat),
      is_logarithmic_loop (.whileLoop ts b o) = true →
      time_nodes_from (time_nodes_from
        (upgrade_complexity "O(1)" (time_node_contrib ts 0)) b 0) o 0 = "O(1)" →
      time_node_contrib (.whileLoop ts b o) d = "O(log n)") := by
  refine ⟨?_, ?_, ?_⟩
  · rintro l ops cs b o ⟨op, hop, hcase⟩
    unfold is_logarithmic_loop
    apply List.any_eq_true.mpr
    refine ⟨.whileLoop (.compare l ops cs) b o, by simp [walk], ?_⟩
    simp only [log_loop_node_hit]
    apply List.any_eq_true.mpr
    refine ⟨op, hop, ?_⟩
    rcases hcase with rfl | rfl | rfl | rfl <;> decide
  · rintro n ⟨t, yl, opk, k, hmem, hop, hk⟩
    unfold is_logarithmic_loop
    apply List.any_eq_true.mpr
    refine ⟨_, hmem, ?_⟩
    rcases hop with rfl | rfl <;> simp [log_loop_node_hit, hk]
  · intro ts b o d hlog hbody
    simp only [time_node_contrib]
    rw [if_pos hlog, hbody]
    decide

/-- Witness for C9: `while i < n: i = i + 2` counts up yet is classified
logarithmic and scored `O(log n)`, and `for x in arr: c = c + 1` is
classified logarithmic through its counter update. -/
theorem C9_witness :
    is_logarithmic_loop ex_count_up_while = true ∧
    time_node_contrib ex_count_up_while 7 = "O(log n)" ∧
    is_logarithmic_loop ex_incr_for = true :=
  ⟨C9_logarithmic_overreach.1 _ [.lt] _ _ _ ⟨.lt, by decide, by decide⟩,
   C9_logarithmic_overreach.2.2 _ _ _ 7
     (C9_logarithmic_overreach.1 _ [.lt] _ _ _ ⟨.lt, by decide, by decide⟩) (by decide),
   C9_logarithmic_overreach.2.1 ex_incr_for
     ⟨.cons (.name "c" .store) .nil, .name "c" .load, .add, .intC 1,
       by decide, Or.inl rfl, by decide⟩⟩

/-- C10 counterexample: the method-cost table lookup for `extend` produces
the token `'O(k)'`, which is outside the claimed seven-class set. -/
theorem C10_counterexample :
    analyze_call_complexity (.call (.attribute (.name "xs" .load) "extend")
      (.cons (.name "ys" .load) .nil)) = "O(k)" ∧
    ¬ "O(k)" ∈ produced_classes := by decide

theorem aggregate_build_values_mem (entry : PyNode → String) (tree : PyNode) (top : String)
    (hentry : ∀ f, entry f ∈ produced_classes) (htop : top ∈ produced_classes) :
    (aggregate_report (build_function_map entry tree) top).overall ∈ produced_classes ∧
    ∀ p ∈ (aggregate_report (build_function_map entry tree) top).functions.getD [],
      p.2 ∈ produced_classes := by
  obtain ⟨fs, hfs, ⟨hemp, hne⟩, hsrc, _⟩ :=
    aggregate_report_spec (build_function_map entry tree) top
  have hvals : ∀ p ∈ fs, p.2 ∈ produced_classes := by
    intro p hp
    rcases hsrc p hp with hmem | heq
    · rcases build_function_map_mem entry tree p hmem with ⟨f, _, rfl⟩
      exact hentry f
    · rw [heq]
      exact htop
  constructor
  · by_cases hfe : fs = []
    · rw [hemp hfe]
      decide
    · rcases List.mem_map.mp ((hne hfe).1) with ⟨p, hp, hpe⟩
      exact hpe ▸ hvals p hp
  · rw [hfs]
    simpa using hvals

theorem estimate_complexity_from_text_overall_mem (code : List Char) :
    (estimate_complexity_from_text code).overall ∈ produced_classes := by
  unfold estimate_complexity_from_text
  dsimp only
  split_ifs <;> decide

theorem estimate_space_complexity_from_text_overall_mem (code : List Char) :
    (estimate_space_complexity_from_text code).overall ∈ produced_classes := by
  unfold estimate_space_complexity_from_text
  dsimp only
  apply space_loop_scan_mem
  split_ifs <;> decide

/-- C10 amended: every depth mapping and every space-table lookup lies in
the seven-class set, and so do the overall and per-function values of both
tree passes and the overall values of both text passes; `O(n!)` is outside
that set, so it is never returned.  The one exception to the claim is the
time-pass method table, whose `extend`/`update` entries produce the
unrecognized token `'O(k)'` — it carries weight 0 and is absorbed by
`upgrade`, so it never reaches a per-function or overall value. -/
theorem C10_amended_class_range :
    (∀ d : Nat, complexity_at_depth d ∈ produced_classes ∧
      space_at_depth d ∈ produced_classes) ∧
    (∀ n : PyNode, analyze_call_complexity n ∈ produced_classes ∨
      analyze_call_complexity n = "O(k)") ∧
    (∀ n : PyNode, analyze_call_space_complexity n ∈ produced_classes) ∧
    (∀ code : List Char,
      (estimate_complexity_from_text code).overall ∈ produced_classes ∧
      (estimate_space_complexity_from_text code).overall ∈ produced_classes) ∧
    (∀ tree : PyNode,
      (calculate_time_complexity tree).overall ∈ produced_classes ∧
      (∀ p ∈ (calculate_time_complexity tree).functions.getD [],
        p.2 ∈ produced_classes) ∧
      (calculate_space_complexity tree).overall ∈ produced_classes ∧
      (∀ p ∈ (calculate_space_complexity tree).functions.getD [],
        p.2 ∈ produced_classes)) ∧
    ¬ "O(n!)" ∈ produced_classes := by
  refine ⟨fun d => ⟨complexity_at_depth_mem d, space_at_depth_mem d⟩,
    analyze_call_complexity_mem, analyze_call_space_complexity_mem,
    fun code => ⟨estimate_complexity_from_text_overall_mem code,
      estimate_space_complexity_from_text_overall_mem code⟩,
    fun tree => ?_, by decide⟩
  obtain ⟨ht1, ht2⟩ := aggregate_build_values_mem function_time_entry tree
    (analyze_function_complexity tree) function_time_entry_mem
    (analyze_function_complexity_mem tree)
  obtain ⟨hs1, hs2⟩ := aggregate_build_values_mem function_space_entry tree
    (analyze_function_space_complexity tree) function_space_entry_mem
    (analyze_function_space_complexity_mem tree)
  exact ⟨ht1, ht2, hs1, hs2⟩

/-- Witness for the amended C5 at a concrete two-loop source. -/
theorem C5_witness :
    estimate_complexity_from_text (("while (a)\nwhile (b)\nc = 1;").data) =
      { overall := amended_text_time_overall (("while (a)\nwhile (b)\nc = 1;").data)
        functions := Option.none
        estimated := true } :=
  C5_text_time_amended (("while (a)\nwhile (b)\nc = 1;").data)

/-- Witness for the amended C10 at a concrete call and a concrete module. -/
theorem C10_witness :
    (analyze_call_complexity (.call (.name "sorted" .load) .nil) ∈ produced_classes ∨
      analyze_call_complexity (.call (.name "sorted" .load) .nil) = "O(k)") ∧
    (calculate_time_complexity ex_module).overall ∈ produced_classes :=
  ⟨C10_amended_class_range.2.1 _,
   (C10_amended_class_range.2.2.2.2.1 ex_module).1⟩

/-- C8: directory analysis is a pure fan-out — it returns one result per
supported-extension file, splits over list concatenation (so one file's
outcome cannot affect another's), and a Python file whose parse fails
produces exactly one `Syntax Errors` issue carrying the line number and
message, with an empty metrics map. -/
theorem C8_directory_fanout :
    (∀ files : List SourceFile,
      (analyze_directory files).length =
        (files.filter (fun g => (language_map g.ext).isSome)).length) ∧
    (∀ as bs : List SourceFile,
      analyze_directory (as ++ bs) = analyze_directory as ++ analyze_directory bs) ∧
    (∀ (f : SourceFile) (lineno : Nat) (msg : String),
      f.ext = ".py" → f.parsed = .error (lineno, msg) →
      analyze_file f =
        { issues := [("Syntax Errors", ["Line " ++ toString lineno ++ ": " ++ msg])]
          metrics := {}
          file_path := f.path
          language := some .python }) := by
  refine ⟨?_, ?_, ?_⟩
  · intro files
    unfold analyze_directory
    rw [List.length_map]
  · intro as bs
    unfold analyze_directory
    rw [List.filter_append, List.map_append]
  · intro f lineno msg he hp
    obtain ⟨path, ext, text, parsed⟩ := f
    simp only at he hp
    subst he
    subst hp
    rfl

/-- Witness for C8: a directory with four files, one unsupported and one
with a syntax error, yields three results and the claimed error shape. -/
theorem C8_witness :
    (analyze_directory [ex_good_py_file, ex_bad_py_file, ex_java_file, ex_txt_file]).length
      = 3 ∧
    analyze_file ex_bad_py_file =
      { issues := [("Syntax Errors", ["Line 3: invalid syntax"])]
        metrics := {}
        file_path := "b.py"
        language := some .python } := by
  constructor
  · rw [C8_directory_fanout.1 [ex_good_py_file, ex_bad_py_file, ex_java_file, ex_txt_file]]
    rfl
  · exact C8_directory_fanout.2.2 ex_bad_py_file 3 "invalid syntax" rfl rfl

end CodeAnalysis
